import Mathlib

/-!
Verification of the rustyfic engine core: a shallow embedding of the
command-resolution and world-state engine (conditions, action resolver,
movement, NPC blocking/roaming, container transfer, output composer)
together with theorems settling the specification claims.

Rust `HashMap`/`HashSet` values are embedded as association lists / lists
whose order stands for the map's iteration order; `u64` arithmetic is
embedded as `Nat` with explicit reduction modulo `2 ^ 64` where the source
wraps.
-/

namespace Rustyfic

/-- Lowercase a string character by character (`Char.toLower` is ASCII-only,
matching the source's use of ASCII ids and `eq_ignore_ascii_case`). -/
def lowerStr (s : String) : String := ⟨s.data.map Char.toLower⟩

/-- Rust `str::split_whitespace`: whitespace-separated pieces, empties
dropped (implemented on the character list so that the kernel can
evaluate it). -/
def splitWs (s : String) : List String :=
  go s.data []
where
  go : List Char → List Char → List String
    | [], cur => if cur.isEmpty then [] else [⟨cur.reverse⟩]
    | c :: rest, cur =>
      if c.isWhitespace then
        if cur.isEmpty then go rest [] else ⟨cur.reverse⟩ :: go rest []
      else go rest (c :: cur)

/-- Rust `str::trim` (implemented on the character list). -/
def strTrim (s : String) : String :=
  ⟨((s.data.dropWhile Char.isWhitespace).reverse.dropWhile
      Char.isWhitespace).reverse⟩

/-- Rust `str::starts_with` on a literal pattern. -/
def strStartsWith (s pat : String) : Bool := pat.data.isPrefixOf s.data

/-- Character-index `drop` (byte and character indices agree on the ASCII
separators the engine slices at). -/
def strDrop (s : String) (n : Nat) : String := ⟨s.data.drop n⟩

/-- Character-index `take`. -/
def strTake (s : String) (n : Nat) : String := ⟨s.data.take n⟩

/-- Character length. -/
def strLen (s : String) : Nat := s.data.length

/-- Lexicographic order on characters through their code points. -/
def charListLeb : List Char → List Char → Bool
  | [], _ => true
  | _ :: _, [] => false
  | a :: as, b :: bs =>
    if a = b then charListLeb as bs
    else decide (a.toNat < b.toNat)

/-- Rust `String` ordering (`cmp`), as used by the name sorts. -/
def strLeb (a b : String) : Bool := charListLeb a.data b.data

/-- Insert into a `le`-sorted list. -/
def insSorted {α : Type} (le : α → α → Bool) (a : α) : List α → List α
  | [] => [a]
  | b :: bs => if le a b then a :: b :: bs else b :: insSorted le a bs

/-- Sort by the boolean relation `le` (Rust `sort_by`). -/
def sortByb {α : Type} (le : α → α → Bool) (l : List α) : List α :=
  l.foldr (insSorted le) []

/-- Rust `str::split_whitespace` followed by `to_lowercase` on each token. -/
def tokenize (input : String) : List String :=
  (splitWs input).map lowerStr

/-- Rust `eq_ignore_ascii_case`. -/
def eqIgnoreAsciiCase (a b : String) : Bool := lowerStr a == lowerStr b

/-- Rust `str::strip_prefix('!')` as used by the condition/effect system. -/
def stripBang (c : String) : Option String :=
  match c.data with
  | '!' :: rest => some ⟨rest⟩
  | _ => none

/-- Flag sets (`HashSet<String>`) as lists observed through membership. -/
abbrev Flags := List String

/-- `conditions_met` from `engine/conditions.rs`: every positive condition's
flag present, every `!`-condition's flag absent. -/
def conditions_met (conditions : List String) (flags : Flags) : Bool :=
  conditions.all fun cond =>
    match stripBang cond with
    | some name => !(flags.contains name)
    | none => flags.contains cond

/-- `apply_effects` from `engine/helpers.rs`: `"flag"` inserts, `"!flag"` removes. -/
def apply_effects (flags : Flags) (effects : List String) : Flags :=
  effects.foldl
    (fun fs eff =>
      match stripBang eff with
      | some name => fs.filter (fun f => f ≠ name)
      | none => fs.insert eff)
    flags

/-- `ItemLocation` from `world/model.rs`. -/
inductive ItemLocation where
  | room (roomId : String)
  | inventory
  | item (parentId : String)
  | npc (holderId : String)
deriving DecidableEq, Repr

/-- `ContainerProps` from `world/model.rs`. -/
structure ContainerProps where
  capacity : Option Nat
  conditions : List String
  complete_when : List String
  complete_flag : Option String
  closed_text : String
  complete_text : Option String
  verbs : List String
  prep : String
deriving DecidableEq, Repr

/-- `ItemKind` from `world/model.rs`. -/
inductive ItemKind where
  | simple
  | container (props : ContainerProps)
deriving DecidableEq, Repr

/-- `Item` from `world/model.rs`. -/
structure Item where
  id : String
  name : String
  aliases : List String
  room_text : String
  inventory_text : String
  examine_text : String
  conditions : List String
  portable : Bool
  kind : ItemKind
  start_location : ItemLocation
deriving DecidableEq, Repr

/-- `Exit` from `world/model.rs`. -/
structure Exit where
  direction : String
  target : String
  verbs : List String
  conditions : List String
deriving DecidableEq, Repr

/-- `StateDesc` from `world/model.rs`. -/
structure StateDesc where
  conditions : List String
  text : String
deriving DecidableEq, Repr

/-- `Action` from `world/model.rs`. -/
structure Action where
  id : String
  verbs : List String
  nouns : List String
  response : String
  effects : List String
  conditions : List String
  scope_requirements : List String
  requires_inventory : List String
  missing_inventory_text : Option String
  missing_scope_text : Option String
deriving DecidableEq, Repr

/-- `Room` from `world/model.rs`. -/
structure Room where
  id : String
  name : String
  desc : String
  exits : List Exit
  actions : List Action
  state_descs : List StateDesc
deriving DecidableEq, Repr

/-- `GlobalCondition` from `world/model.rs`. -/
structure GlobalCondition where
  id : String
  conditions : List String
  allowed_rooms : List String
  disallowed_rooms : List String
  response : String
  effects : List String
  one_shot : Bool
deriving DecidableEq, Repr

/-- `NpcRoam` from `world/model.rs`. -/
structure NpcRoam where
  enabled : Bool
  allowed_rooms : List String
  chance_percent : Nat
deriving DecidableEq, Repr

/-- `NpcDialogue` from `world/model.rs`. -/
structure NpcDialogue where
  id : String
  conditions : List String
  response : String
  effects : List String
  one_shot : Bool
deriving DecidableEq, Repr

/-- `Npc` from `world/model.rs`. -/
structure Npc where
  id : String
  name : String
  aliases : List String
  start_room : String
  room_text : String
  examine_text : String
  conditions : List String
  actions : List Action
  roam : Option NpcRoam
  block_movement : Bool
  block_conditions : List String
  block_text : Option String
  block_exits : List String
  foe : Bool
  attack_chance_percent : Nat
  attack_text : Option String
  attack_effects : List String
  dialogue : List NpcDialogue
deriving DecidableEq, Repr

/-- `World` from `world/model.rs`; the `HashMap`s become association lists
whose order stands for the map's iteration order. -/
structure World where
  id : String
  name : String
  desc : String
  start_room : String
  rooms : List (String × Room)
  items : List (String × Item)
  npcs : List (String × Npc)
  global_conditions : List GlobalCondition
  global_actions : List Action
deriving Repr

/-- `HashMap::get`: the value bound to `k`, if any. -/
def alookup {α : Type} (m : List (String × α)) (k : String) : Option α :=
  (m.find? (fun p => p.fst == k)).map (fun p => p.snd)

/-- `HashMap::insert`: replace an existing binding or append a new one. -/
def ainsert {α : Type} (m : List (String × α)) (k : String) (v : α) :
    List (String × α) :=
  match m with
  | [] => [(k, v)]
  | p :: rest => if p.fst == k then (k, v) :: rest else p :: ainsert rest k v

/-- `HashMap::remove`: drop every binding of `k`. -/
def aerase {α : Type} (m : List (String × α)) (k : String) :
    List (String × α) :=
  m.filter (fun p => p.fst ≠ k)

/-- `HashMap::contains_key`. -/
def ahasKey {α : Type} (m : List (String × α)) (k : String) : Bool :=
  (m.find? (fun p => p.fst == k)).isSome

/-- `HashMap::values` in iteration order. -/
def avalues {α : Type} (m : List (String × α)) : List α :=
  m.map (fun p => p.snd)

/-- Item-location maps (`HashMap<String, ItemLocation>`). -/
abbrev Locs := List (String × ItemLocation)

/-- NPC-location maps (`HashMap<String, String>`). -/
abbrev NpcLocs := List (String × String)

/-- `item_visible` from `engine/helpers.rs`. -/
def item_visible (item : Item) (flags : Flags) : Bool :=
  conditions_met item.conditions flags

/-- `item_in_room` from `engine/helpers.rs` / `engine/actions.rs`. -/
def item_in_room (itemId : String) (locs : Locs) (roomId : String) : Bool :=
  match alookup locs itemId with
  | some (ItemLocation.room r) => r == roomId
  | _ => false

/-- `item_in_inventory` from `engine/helpers.rs` / `engine/actions.rs`. -/
def item_in_inventory (itemId : String) (locs : Locs) : Bool :=
  match alookup locs itemId with
  | some ItemLocation.inventory => true
  | _ => false

/-- `OutputBlock` from `engine/output.rs`. -/
inductive OutputBlock where
  | title (s : String)
  | text (s : String)
  | event (s : String)
  | exits (s : String)
deriving DecidableEq, Repr

/-- The payload string of a block. -/
def OutputBlock.str : OutputBlock → String
  | .title s => s
  | .text s => s
  | .event s => s
  | .exits s => s

/-- Whether a block is an `Exits` block. -/
def OutputBlock.isExits : OutputBlock → Bool
  | .exits _ => true
  | _ => false

/-- `Output` from `engine/output.rs`. -/
structure Output where
  blocks : List OutputBlock
deriving DecidableEq, Repr

/-- `Output::new`. -/
def Output.new : Output := ⟨[]⟩

/-- Insert a block before the first `Exits` block, or append when none exists
(the `position`/`insert` pattern shared by `title`/`say`/`event`). -/
def insertBeforeExits (b : OutputBlock) : List OutputBlock → List OutputBlock
  | [] => [b]
  | x :: xs => if x.isExits then b :: x :: xs else x :: insertBeforeExits b xs

/-- `Output::title` from `engine/output.rs`. -/
def Output.title (o : Output) (s : String) : Output :=
  if (strTrim s) = "" then o else ⟨insertBeforeExits (.title s) o.blocks⟩

/-- `Output::say` from `engine/output.rs`. -/
def Output.say (o : Output) (s : String) : Output :=
  if (strTrim s) = "" then o else ⟨insertBeforeExits (.text s) o.blocks⟩

/-- `Output::event` from `engine/output.rs`. -/
def Output.event (o : Output) (s : String) : Output :=
  if (strTrim s) = "" then o else ⟨insertBeforeExits (.event s) o.blocks⟩

/-- `Output::set_exits` from `engine/output.rs`: drop any existing `Exits`
block and append the new one last. -/
def Output.set_exits (o : Output) (s : String) : Output :=
  if (strTrim s) = "" then o
  else ⟨(o.blocks.filter (fun b => !b.isExits)) ++ [.exits s]⟩

/-- 2^64, the modulus of the source's wrapping `u64` arithmetic. -/
def U64LIM : Nat := 2 ^ 64

/-- `stable_hash_u64` from `engine/movement.rs` / `engine/npcs.rs`:
an FNV-style fold over the string's UTF-8 bytes, wrapping at `2 ^ 64`. -/
def stable_hash_u64 (turnIndex : Nat) (s : String) : Nat :=
  (s.toUTF8.toList.map (fun b => b.toNat)).foldl
    (fun h b => ((h ^^^ b) * 1099511628211) % U64LIM)
    ((1469598103934665603 ^^^ turnIndex) % U64LIM)

/-- `stable_roll_percent` from `engine/movement.rs`: 0..=99, deterministic
per (seed, NPC id). -/
def stable_roll_percent (turnIndex : Nat) (npcId : String) : Nat :=
  stable_hash_u64 turnIndex npcId % 100

/-- `deterministic_roll_percent` from `engine/npcs.rs`. -/
def deterministic_roll_percent (turnIndex : Nat) (npcId : String) : Nat :=
  stable_hash_u64 turnIndex npcId % 100

/-- `deterministic_index` from `engine/npcs.rs`: roam-target selection,
seeded with `turn_index.wrapping_add(999)`. -/
def deterministic_index (turnIndex : Nat) (npcId : String) (len : Nat) : Nat :=
  if len = 0 then 0
  else stable_hash_u64 ((turnIndex + 999) % U64LIM) npcId % len

/-- `BlockOutcome` from `engine/movement.rs`. -/
structure BlockOutcome where
  message : String
  attack_text : Option String
  attack_effects : List String
deriving DecidableEq, Repr

/-- The per-NPC qualification test inside `movement_blocked_by_npc`:
blocking enabled, located in the current room, visible, extra block
conditions met, and (when a filter is declared) the attempted exit's
direction or a verb synonym appears in `block_exits`. -/
def npcBlockQualifies (npcLocs : NpcLocs) (flags : Flags)
    (currentRoomId : String) (attemptedExit : Exit) (npc : Npc) : Bool :=
  npc.block_movement &&
  (match alookup npcLocs npc.id with
   | some r => r == currentRoomId
   | none => false) &&
  conditions_met npc.conditions flags &&
  (npc.block_conditions.isEmpty || conditions_met npc.block_conditions flags) &&
  (npc.block_exits.isEmpty ||
    (npc.block_exits.any
      (fun b => eqIgnoreAsciiCase b (lowerStr attemptedExit.direction)) ||
     attemptedExit.verbs.any
      (fun v => npc.block_exits.any (fun b => eqIgnoreAsciiCase b v))))

/-- The outcome built for the first qualifying NPC: custom or default block
message, plus an attack roll when the NPC is a foe with a positive chance. -/
def mkBlockOutcome (flags : Flags) (attemptSeed : Nat) (npc : Npc) :
    BlockOutcome :=
  let _ := flags
  let message :=
    match npc.block_text with
    | some t => if (strTrim t) ≠ "" then (strTrim t) else npc.name ++ " blocks your way."
    | none => npc.name ++ " blocks your way."
  let atk :=
    if npc.foe && npc.attack_chance_percent > 0 then
      if stable_roll_percent attemptSeed npc.id < npc.attack_chance_percent then
        let text :=
          match npc.attack_text with
          | some t => if (strTrim t) = "" then npc.name ++ " strikes at you!" else (strTrim t)
          | none => npc.name ++ " strikes at you!"
        (some text, npc.attack_effects)
      else (none, ([] : List String))
    else (none, ([] : List String))
  ⟨message, atk.fst, atk.snd⟩

/-- `movement_blocked_by_npc` from `engine/movement.rs`: walk the world's
NPCs in iteration order and return an outcome for the first qualifying one. -/
def movement_blocked_by_npc (w : World) (npcLocs : NpcLocs) (flags : Flags)
    (currentRoomId : String) (attemptedExit : Exit) (attemptSeed : Nat) :
    Option BlockOutcome :=
  go (avalues w.npcs)
where
  go : List Npc → Option BlockOutcome
    | [] => none
    | npc :: rest =>
      if npcBlockQualifies npcLocs flags currentRoomId attemptedExit npc then
        some (mkBlockOutcome flags attemptSeed npc)
      else go rest

/-- Result of a movement attempt: output, (possibly updated) current room,
(possibly updated) flags, and the handled marker returned by the source. -/
structure MoveResult where
  out : Output
  roomId : String
  flags : Flags
  handled : Bool
deriving DecidableEq, Repr

/-- `do_move` from `engine/movement.rs`: defensive target-room check, then
an unconditional room change. -/
def do_move (out : Output) (currentRoomId : String) (w : World)
    (flags : Flags) (exit : Exit) : MoveResult :=
  if !(ahasKey w.rooms exit.target) then
    ⟨out.say ("You try to go " ++ exit.direction ++
        ", but something feels wrong (room not found)."),
      currentRoomId, flags, true⟩
  else
    ⟨out.say ("You go " ++ exit.direction ++ "."), exit.target, flags, true⟩

/-- The block-or-move step shared by both passes of `try_handle_movement`. -/
def resolveExitAttempt (out : Output) (currentRoomId : String) (w : World)
    (npcLocs : NpcLocs) (flags : Flags) (attemptSeed : Nat) (e : Exit) :
    MoveResult :=
  match movement_blocked_by_npc w npcLocs flags currentRoomId e attemptSeed with
  | some block =>
    let out := out.say block.message
    let out :=
      match block.attack_text with
      | some text => out.say text
      | none => out
    let flags :=
      if !block.attack_effects.isEmpty then apply_effects flags block.attack_effects
      else flags
    ⟨out, currentRoomId, flags, true⟩
  | none => do_move out currentRoomId w flags e

/-- Exact pass of `try_handle_movement`: currently-available exits hit by a
whole input token (direction or verb synonym, ASCII-case-insensitive). -/
def exactExitMatches (room : Room) (flags : Flags) (tokens : List String) :
    List Exit :=
  room.exits.filter fun e =>
    conditions_met e.conditions flags &&
    tokens.any (fun tok =>
      eqIgnoreAsciiCase e.direction tok || e.verbs.any (fun v => eqIgnoreAsciiCase v tok))

/-- The single-character tokens kept for the abbreviation pass. -/
def abbrevChars (tokens : List String) : List Char :=
  tokens.filterMap fun t =>
    match t.toList with
    | [c] => some c
    | _ => none

/-- Abbreviation pass of `try_handle_movement`: available exits whose
direction's or a verb's first character matches some single-character token. -/
def abbrevExitMatches (room : Room) (flags : Flags) (cs : List Char) :
    List Exit :=
  room.exits.filter fun e =>
    conditions_met e.conditions flags &&
    ((match e.direction.toList with
      | c :: _ => cs.any (fun ac => ac.toLower == c.toLower)
      | [] => false) ||
     e.verbs.any (fun v =>
      match v.toList with
      | c :: _ => cs.any (fun ac => ac.toLower == c.toLower)
      | [] => false))

/-- `try_handle_movement` from `engine/movement.rs`. -/
def try_handle_movement (out : Output) (currentRoomId : String) (w : World)
    (room : Room) (cmd : String) (npcLocs : NpcLocs) (flags : Flags)
    (attemptSeed : Nat) : MoveResult :=
  let tokens := tokenize cmd
  if tokens.isEmpty then ⟨out, currentRoomId, flags, false⟩
  else
    match exactExitMatches room flags tokens with
    | [e] => resolveExitAttempt out currentRoomId w npcLocs flags attemptSeed e
    | [] =>
      let cs := abbrevChars tokens
      if cs.isEmpty then ⟨out, currentRoomId, flags, false⟩
      else
        match abbrevExitMatches room flags cs with
        | [] => ⟨out, currentRoomId, flags, false⟩
        | [e] => resolveExitAttempt out currentRoomId w npcLocs flags attemptSeed e
        | es =>
          let dirs := String.intercalate ", " (es.map (fun e => e.direction))
          ⟨out.say ("That direction is ambiguous here. Did you mean: " ++ dirs ++ "?"),
            currentRoomId, flags, true⟩
    | es =>
      let dirs := String.intercalate ", " (es.map (fun e => e.direction))
      ⟨out.say ("That movement is ambiguous here. Did you mean: " ++ dirs ++ "?"),
        currentRoomId, flags, true⟩

/-- `phrase_matches_tokens` from `engine/actions.rs`: every word of the
phrase appears as a whole token, order-independent. -/
def phrase_matches_tokens (phrase : String) (tokens : List String) : Bool :=
  let words := (splitWs phrase).map lowerStr
  if words.isEmpty then false
  else words.all (fun w => tokens.any (fun t => t == w))

/-- `phrase_match_score` from `engine/actions.rs`: the phrase's word count
when it matches, otherwise 0. -/
def phrase_match_score (phrase : String) (tokens : List String) : Nat :=
  if phrase_matches_tokens phrase tokens then
    (splitWs phrase).length
  else 0

/-- `input_mentions_item_name` from `engine/actions.rs`: at least one word of
the item's primary name appears as a token. -/
def input_mentions_item_name (item : Item) (tokens : List String) : Bool :=
  ((splitWs item.name).map lowerStr).any
    (fun nw => tokens.any (fun t => t == nw))

/-- `missing_inventory_message` from `engine/actions.rs`. -/
def missing_inventory_message (action : Action) (w : World) : String :=
  if action.requires_inventory.isEmpty then "You don't have what you need."
  else
    let names := action.requires_inventory.map fun id =>
      match alookup w.items id with
      | some it => it.name
      | none => id
    match names with
    | [n] => "You need the " ++ n ++ "."
    | _ => "You need: " ++ String.intercalate ", " names ++ "."

/-- `missing_scope_message` from `engine/actions.rs`. -/
def missing_scope_message (action : Action) (w : World) : String :=
  if action.scope_requirements.isEmpty then "You don't see that here."
  else
    let names := action.scope_requirements.map fun id =>
      match alookup w.items id with
      | some it => it.name
      | none => id
    match names with
    | [n] => "You don't see the " ++ n ++ " here."
    | _ => "You don't see those here: " ++ String.intercalate ", " names ++ "."

/-- The scope-requirements loop of `evaluate_actions_for_input`, carrying
`(scope_ok, scope_mentioned_ok, scope_score)` and breaking with both flags
false on the first required id missing from the world's item map. -/
def scopeScan (w : World) (locs : Locs) (currentRoomId : String)
    (tokens : List String) : List String → Bool → Bool → Nat →
    Bool × Bool × Nat
  | [], ok, mentioned, score => (ok, mentioned, score)
  | reqId :: rest, ok, mentioned, score =>
    match alookup w.items reqId with
    | none => (false, false, score)
    | some item =>
      let ok := ok && item_in_room reqId locs currentRoomId
      if input_mentions_item_name item tokens then
        scopeScan w locs currentRoomId tokens rest ok mentioned (score + 3)
      else
        scopeScan w locs currentRoomId tokens rest ok false score

/-- The inventory-requirements loop of `evaluate_actions_for_input`,
carrying `(inv_ok, inv_score)`. -/
def invScan (locs : Locs) : List String → Bool → Nat → Bool × Nat
  | [], ok, score => (ok, score)
  | invId :: rest, ok, score =>
    if item_in_inventory invId locs then invScan locs rest ok (score + 2)
    else invScan locs rest false score

/-- What one loop iteration of `evaluate_actions_for_input` does with a
candidate action: skip it, record it as executable with its total score, or
record it as a blocked candidate with key `total_score * 10 + reason_rank`
(ranks: missing inventory 3, missing scope 2, blocked by condition 1). -/
inductive ActOutcome where
  | skip
  | exec (score : Nat)
  | blocked (key : Nat) (msg : String)
deriving DecidableEq, Repr

/-- Per-candidate analysis of `evaluate_actions_for_input`
(`engine/actions.rs`): verb gate, noun gate, scope and inventory scans,
condition check, strong intent, and the executable/blocked decision. -/
def classifyAction (w : World) (locs : Locs) (currentRoomId : String)
    (flags : Flags) (tokens : List String) (action : Action) : ActOutcome :=
  let verb_score := (action.verbs.map (fun v => phrase_match_score v tokens)).foldl Nat.max 0
  if verb_score = 0 then .skip
  else
    let nounBest := (action.nouns.map (fun n => phrase_match_score n tokens)).foldl Nat.max 0
    if !action.nouns.isEmpty && nounBest = 0 then .skip
    else
      let noun_score := if action.nouns.isEmpty then 0 else nounBest
      let (scope_ok, scope_mentioned_ok, scope_score) :=
        scopeScan w locs currentRoomId tokens action.scope_requirements true true 0
      let (inv_ok, inv_score) := invScan locs action.requires_inventory true 0
      let cond_ok := conditions_met action.conditions flags
      let intent_strong :=
        if action.scope_requirements.isEmpty then true else scope_mentioned_ok
      let total_score := verb_score + noun_score + scope_score + inv_score
      if intent_strong && scope_ok && inv_ok && cond_ok then .exec total_score
      else if intent_strong then
        let (rank, msg) :=
          if !inv_ok then (3, missing_inventory_message action w)
          else if !scope_ok then (2, missing_scope_message action w)
          else if !cond_ok then (1, "You can't do that right now.")
          else (1, "You can't do that.")
        .blocked (total_score * 10 + rank) msg
      else .skip

/-- Loop state of `evaluate_actions_for_input`: best executable score, the
executable actions holding it (in encounter order), and the best blocked
candidate. -/
structure EvalSt where
  bestScore : Nat
  bestExec : List Action
  bestBlocked : Option (Nat × String)
deriving DecidableEq, Repr

/-- One iteration of the candidate loop of `evaluate_actions_for_input`. -/
def stepAction (w : World) (locs : Locs) (currentRoomId : String)
    (flags : Flags) (tokens : List String) (st : EvalSt) (action : Action) :
    EvalSt :=
  match classifyAction w locs currentRoomId flags tokens action with
  | .skip => st
  | .exec score =>
    if score > st.bestScore then ⟨score, [action], st.bestBlocked⟩
    else if score = st.bestScore then
      ⟨st.bestScore, st.bestExec ++ [action], st.bestBlocked⟩
    else st
  | .blocked key msg =>
    match st.bestBlocked with
    | none => ⟨st.bestScore, st.bestExec, some (key, msg)⟩
    | some (bk, bm) =>
      if key > bk then ⟨st.bestScore, st.bestExec, some (key, msg)⟩
      else ⟨st.bestScore, st.bestExec, some (bk, bm)⟩

/-- `evaluate_actions_for_input` from `engine/actions.rs`: returns
(executed action, player-facing message, handled). -/
def evaluate_actions_for_input (actions : List Action) (input : String)
    (w : World) (locs : Locs) (currentRoomId : String) (flags : Flags) :
    Option Action × Option String × Bool :=
  let tokens := tokenize input
  if tokens.isEmpty then (none, none, false)
  else
    let st := actions.foldl (stepAction w locs currentRoomId flags tokens) ⟨0, [], none⟩
    match st.bestExec with
    | [a] => (some a, none, true)
    | [] =>
      match st.bestBlocked with
      | some (_, msg) => (none, some msg, true)
      | none => (none, none, false)
    | _ => (none, some "Be more specific.", true)

/-- `try_handle_action` from `engine/actions.rs`: room-scoped actions; note
that the item-location map is borrowed read-only, so the handler returns
only output, flags and the handled marker. -/
def try_handle_action (out : Output) (room : Room) (input : String)
    (w : World) (locs : Locs) (currentRoomId : String) (flags : Flags) :
    Output × Flags × Bool :=
  match evaluate_actions_for_input room.actions input w locs currentRoomId flags with
  | (some a, _, _) =>
    let out := if (strTrim a.response) ≠ "" then out.say (strTrim a.response) else out
    (out, apply_effects flags a.effects, true)
  | (none, some msg, _) => (out.say msg, flags, true)
  | (none, none, handled) => (out, flags, handled)

/-- `try_handle_global_action` from `engine/actions.rs`: world-wide actions;
the item-location map is again borrowed read-only. -/
def try_handle_global_action (out : Output) (input : String) (w : World)
    (locs : Locs) (currentRoomId : String) (flags : Flags) :
    Output × Flags × Bool :=
  match evaluate_actions_for_input w.global_actions input w locs currentRoomId flags with
  | (some a, _, _) =>
    let out := if (strTrim a.response) ≠ "" then out.say (strTrim a.response) else out
    (out, apply_effects flags a.effects, true)
  | (none, some msg, _) => (out.say msg, flags, true)
  | (none, none, handled) => (out, flags, handled)

/-- The lowercased name+alias word pool used by the locator's scoring. -/
def entityWords (name : String) (aliases : List String) : List String :=
  (splitWs name).map lowerStr ++
  aliases.foldr
    (fun al acc =>
      (splitWs al).map lowerStr ++ acc)
    []

/-- Full-word overlap score: how many query words appear in the pool. -/
def overlapScore (queryWords pool : List String) : Nat :=
  queryWords.foldl (fun s qw => if pool.any (fun nw => nw == qw) then s + 1 else s) 0

/-- `ItemMatch` from `engine/items.rs`. -/
inductive ItemMatch where
  | nomatch
  | one (item : Item)
  | many (items : List Item)
deriving DecidableEq, Repr

/-- `find_item_by_words_scored` from `engine/items.rs`: scored full-word
matching over in-scope items, ambiguity surfaced as `many` sorted by name. -/
def find_item_by_words_scored (w : World) (locs : Locs) (flags : Flags)
    (query : String) (filter : Item → ItemLocation → Bool)
    (respect_conditions : Bool) : ItemMatch :=
  let queryWords := tokenize query
  if queryWords.isEmpty then .nomatch
  else
    let scored := (avalues w.items).filterMap fun item =>
      match alookup locs item.id with
      | none => none
      | some loc =>
        if !(filter item loc) then none
        else if respect_conditions && !(conditions_met item.conditions flags) then none
        else
          let score := overlapScore queryWords (entityWords item.name item.aliases)
          if score > 0 then some (item, score) else none
    if scored.isEmpty then .nomatch
    else
      let maxScore := (scored.map (fun p => p.snd)).foldl Nat.max 0
      let best := (scored.filter (fun p => p.snd == maxScore)).map (fun p => p.fst)
      match best with
      | [] => .nomatch
      | [i] => .one i
      | _ => .many (sortByb (fun a b => strLeb a.name b.name) best)

/-- `find_item` from `engine/items.rs` (respect item conditions). -/
def find_item (w : World) (locs : Locs) (flags : Flags) (query : String)
    (filter : Item → ItemLocation → Bool) : ItemMatch :=
  find_item_by_words_scored w locs flags query filter true

/-- `find_item_ignore_conditions` from `engine/items.rs`. -/
def find_item_ignore_conditions (w : World) (locs : Locs) (flags : Flags)
    (query : String) (filter : Item → ItemLocation → Bool) : ItemMatch :=
  find_item_by_words_scored w locs flags query filter false

/-- `NpcMatch` from `engine/npcs.rs`. -/
inductive NpcMatch where
  | nomatch
  | one (npc : Npc)
  | many (npcs : List Npc)
deriving DecidableEq, Repr

/-- `npc_visible` from `engine/npcs.rs`. -/
def npc_visible (npc : Npc) (flags : Flags) : Bool :=
  conditions_met npc.conditions flags

/-- `find_npc_by_words_scored` from `engine/npcs.rs`: scored name/alias
matching over visible NPCs in the current room. -/
def find_npc_by_words_scored (w : World) (npcLocs : NpcLocs) (flags : Flags)
    (currentRoomId : String) (query : String) : NpcMatch :=
  let queryWords := tokenize query
  if queryWords.isEmpty then .nomatch
  else
    let scored := (avalues w.npcs).filterMap fun npc =>
      match alookup npcLocs npc.id with
      | none => none
      | some roomId =>
        if roomId ≠ currentRoomId then none
        else if !(npc_visible npc flags) then none
        else
          let score := overlapScore queryWords (entityWords npc.name npc.aliases)
          if score > 0 then some (npc, score) else none
    if scored.isEmpty then .nomatch
    else
      let maxScore := (scored.map (fun p => p.snd)).foldl Nat.max 0
      let best := (scored.filter (fun p => p.snd == maxScore)).map (fun p => p.fst)
      match best with
      | [n] => .one n
      | _ => .many (sortByb (fun a b => strLeb a.name b.name) best)

/-- `try_handle_npc_action` from `engine/npcs.rs`: address an NPC, evaluate
its actions, and on execution consume the required inventory items by
removing their location entries entirely. -/
def try_handle_npc_action (out : Output) (input : String) (w : World)
    (locs : Locs) (npcLocs : NpcLocs) (currentRoomId : String)
    (flags : Flags) : Output × Locs × Flags × Bool :=
  let tokens := tokenize input
  if tokens.isEmpty then (out, locs, flags, false)
  else
    match find_npc_by_words_scored w npcLocs flags currentRoomId input with
    | .nomatch => (out, locs, flags, false)
    | .many _ => (out.say "Be more specific.", locs, flags, true)
    | .one npc =>
      match evaluate_actions_for_input npc.actions input w locs currentRoomId flags with
      | (some a, _, _) =>
        let out := if (strTrim a.response) ≠ "" then out.say (strTrim a.response) else out
        let flags := apply_effects flags a.effects
        let locs := a.requires_inventory.foldl (fun m r => aerase m r) locs
        (out, locs, flags, true)
      | (none, some msg, _) => (out.say msg, locs, flags, true)
      | (none, none, handled) => (out, locs, flags, handled)

/-- `handle_talk_to_npc` from `engine/npcs.rs`: fire the first matching
dialogue entry, honoring one-shot tracking. -/
def handle_talk_to_npc (out : Output) (w : World) (npcLocs : NpcLocs)
    (currentRoomId : String) (targetName : String) (flags : Flags)
    (firedDialogues : List String) :
    Output × Flags × List String × Bool :=
  let query := lowerStr (strTrim targetName)
  if query = "" then (out.say "Talk to whom?", flags, firedDialogues, true)
  else
    match find_npc_by_words_scored w npcLocs flags currentRoomId query with
    | .nomatch => (out, flags, firedDialogues, false)
    | .many _ => (out.say "Be more specific.", flags, firedDialogues, true)
    | .one npc =>
      if npc.dialogue.isEmpty then
        (out.say (npc.name ++ " has nothing to say."), flags, firedDialogues, true)
      else
        match goDialogue npc npc.dialogue out flags firedDialogues with
        | some r => r
        | none =>
          (out.say (npc.name ++ " has nothing new to say."), flags, firedDialogues, true)
where
  goDialogue (npc : Npc) : List NpcDialogue → Output → Flags → List String →
      Option (Output × Flags × List String × Bool)
    | [], _, _, _ => none
    | dlg :: rest, out, flags, fired =>
      if !(conditions_met dlg.conditions flags) then goDialogue npc rest out flags fired
      else
        let key := npc.id ++ "::" ++ dlg.id
        if dlg.one_shot && fired.contains key then goDialogue npc rest out flags fired
        else
          let out := if (strTrim dlg.response) ≠ "" then out.say (strTrim dlg.response) else out
          let flags := apply_effects flags dlg.effects
          let fired := if dlg.one_shot then fired.insert key else fired
          some (out, flags, fired, true)

/-- `roam_npcs_after_player_move` from `engine/npcs.rs`: deterministic
roaming, keyed by the turn counter; the flag set is accepted but unread
(the source explicitly discards it with `let _ = flags`). -/
def roam_npcs_after_player_move (w : World) (npcLocs : NpcLocs)
    (flags : Flags) (turnIndex : Nat) : NpcLocs :=
  let _ := flags
  (avalues w.npcs).foldl
    (fun nl npc =>
      match npc.roam with
      | some r =>
        if r.enabled && !r.allowed_rooms.isEmpty && r.chance_percent > 0 then
          if deterministic_roll_percent turnIndex npc.id ≥ r.chance_percent then nl
          else
            let idx := deterministic_index turnIndex npc.id r.allowed_rooms.length
            let target := r.allowed_rooms.getD idx ""
            if ahasKey w.rooms target then ainsert nl npc.id target else nl
        else nl
      | none => nl)
    npcLocs

/-- `handle_inventory` from `engine/items.rs`. -/
def handle_inventory (out : Output) (w : World) (locs : Locs) : Output :=
  let carried := sortByb (fun a b => strLeb a.name b.name)
    ((avalues w.items).filter (fun item => item_in_inventory item.id locs))
  if carried.isEmpty then out.say "You are carrying nothing."
  else
    carried.foldl
      (fun o item =>
        if (strTrim item.inventory_text) = "" then o.say ("  " ++ item.name)
        else o.say ("  " ++ (strTrim item.inventory_text)))
      (out.say "You are carrying:")

/-- `handle_take` from `engine/items.rs`. -/
def handle_take (out : Output) (locs : Locs) (w : World)
    (currentRoomId : String) (targetName : String) (flags : Flags) :
    Output × Locs :=
  let query := lowerStr (strTrim targetName)
  if query = "" then (out.say "Take what?", locs)
  else
    match find_item w locs flags query
        (fun _ loc => match loc with
          | .room r => r == currentRoomId
          | _ => false) with
    | .nomatch => (out.say "You don't see that here.", locs)
    | .many _ => (out.say "Be more specific.", locs)
    | .one item =>
      if !item.portable then (out.say ("You can't take the " ++ item.name ++ "."), locs)
      else
        (out.say ("You take the " ++ item.name ++ "."),
         ainsert locs item.id ItemLocation.inventory)

/-- `handle_take_all_room` from `engine/items.rs`. -/
def handle_take_all_room (out : Output) (locs : Locs) (w : World)
    (currentRoomId : String) (flags : Flags) : Output × Locs :=
  let toTake := (avalues w.items).filter fun item =>
    (match alookup locs item.id with
     | some (.room r) => r == currentRoomId
     | _ => false) &&
    conditions_met item.conditions flags && item.portable
  if toTake.isEmpty then (out.say "There is nothing here you can take.", locs)
  else
    toTake.foldl
      (fun (acc : Output × Locs) item =>
        (acc.fst.say ("You take the " ++ item.name ++ "."),
         ainsert acc.snd item.id ItemLocation.inventory))
      (out, locs)

/-- `handle_drop` from `engine/items.rs`: matching deliberately ignores item
conditions (an empty flag set is passed). -/
def handle_drop (out : Output) (locs : Locs) (w : World)
    (currentRoomId : String) (targetName : String) : Output × Locs :=
  let query := lowerStr (strTrim targetName)
  if query = "" then (out.say "Drop what?", locs)
  else
    match find_item_ignore_conditions w locs [] query
        (fun _ loc => loc == ItemLocation.inventory) with
    | .nomatch => (out.say "You aren't carrying that.", locs)
    | .many _ => (out.say "Be more specific.", locs)
    | .one item =>
      (out.say ("You drop the " ++ item.name ++ "."),
       ainsert locs item.id (ItemLocation.room currentRoomId))

/-- `handle_drop_all` from `engine/items.rs`. -/
def handle_drop_all (out : Output) (locs : Locs) (w : World)
    (currentRoomId : String) : Output × Locs :=
  let toDrop := (avalues w.items).filter fun item =>
    (match alookup locs item.id with
     | some .inventory => true
     | _ => false) && item.portable
  if toDrop.isEmpty then (out.say "You aren't carrying anything you can drop.", locs)
  else
    toDrop.foldl
      (fun (acc : Output × Locs) item =>
        (acc.fst.say ("You drop the " ++ item.name ++ "."),
         ainsert acc.snd item.id (ItemLocation.room currentRoomId)))
      (out, locs)

/-- `handle_take_from_container` from `engine/items.rs`. -/
def handle_take_from_container (out : Output) (locs : Locs) (w : World)
    (currentRoomId : String) (itemName containerName : String)
    (flags : Flags) : Output × Locs :=
  let itemQuery := lowerStr (strTrim itemName)
  let containerQuery := lowerStr (strTrim containerName)
  if itemQuery = "" then (out.say "Take what?", locs)
  else if containerQuery = "" then (out.say "Take it from where?", locs)
  else
    match find_item w locs flags containerQuery
        (fun candidate loc =>
          (match candidate.kind with
           | .container _ => true
           | .simple => false) &&
          (match loc with
           | .room r => r == currentRoomId
           | .inventory => true
           | _ => false)) with
    | .nomatch => (out.say "You don't see any container like that here.", locs)
    | .many _ => (out.say "Be more specific about which container.", locs)
    | .one container =>
      match container.kind with
      | .simple => (out.say "That isn't a container.", locs)
      | .container props =>
        if !props.conditions.isEmpty && !(conditions_met props.conditions flags) then
          (out.say (strTrim props.closed_text), locs)
        else
          match find_item w locs flags itemQuery
              (fun _ loc => match loc with
                | .item parentId => parentId == container.id
                | _ => false) with
          | .nomatch =>
            (out.say ("You don't see anything like that in the " ++
              container.name ++ "."), locs)
          | .many _ => (out.say "Be more specific about what to take.", locs)
          | .one item =>
            if !item.portable then
              (out.say ("You can't take the " ++ item.name ++ "."), locs)
            else
              (out.say ("You take the " ++ item.name ++ " from the " ++
                container.name ++ "."),
               ainsert locs item.id ItemLocation.inventory)

/-- `handle_take_all_from_container` from `engine/items.rs`. -/
def handle_take_all_from_container (out : Output) (locs : Locs) (w : World)
    (currentRoomId : String) (containerName : String) (flags : Flags) :
    Output × Locs :=
  let containerQuery := lowerStr (strTrim containerName)
  if containerQuery = "" then (out.say "Take all from where?", locs)
  else
    match find_item w locs flags containerQuery
        (fun candidate loc =>
          (match loc with
           | .room r => r == currentRoomId
           | .inventory => true
           | _ => false) &&
          (match candidate.kind with
           | .container _ => true
           | .simple => false)) with
    | .nomatch => (out.say "You don't see any container like that here.", locs)
    | .many _ => (out.say "Be more specific about which container.", locs)
    | .one container =>
      match container.kind with
      | .simple => (out, locs)
      | .container props =>
        if !props.conditions.isEmpty && !(conditions_met props.conditions flags) then
          (out.say (strTrim props.closed_text), locs)
        else
          let toTake := (avalues w.items).filter fun item =>
            (match alookup locs item.id with
             | some (.item parentId) => parentId == container.id
             | _ => false) &&
            conditions_met item.conditions flags && item.portable
          if toTake.isEmpty then
            (out.say ("There is nothing in the " ++ container.name ++
              " you can take."), locs)
          else
            toTake.foldl
              (fun (acc : Output × Locs) item =>
                (acc.fst.say ("You take the " ++ item.name ++ " from the " ++
                  container.name ++ "."),
                 ainsert acc.snd item.id ItemLocation.inventory))
              (out, locs)

/-- The capacity count of `try_handle_container_store`: number of location
entries currently inside the container. -/
def countOccupants (locs : Locs) (containerId : String) : Nat :=
  (locs.filter fun p =>
    match p.snd with
    | .item parentId => parentId == containerId
    | _ => false).length

/-- `check_container_completion` from `engine/items.rs`: when the container
declares a completion flag and a non-empty required-contents set, the flag
is absent, and every required item sits inside this exact container, set
the flag and emit the completion text. -/
def check_container_completion (out : Output) (w : World) (locs : Locs)
    (flags : Flags) (containerId : String) : Output × Flags :=
  match alookup w.items containerId with
  | none => (out, flags)
  | some container =>
    match container.kind with
    | .simple => (out, flags)
    | .container props =>
      match props.complete_flag with
      | none => (out, flags)
      | some completeFlag =>
        if props.complete_when.isEmpty then (out, flags)
        else if flags.contains completeFlag then (out, flags)
        else if props.complete_when.all
            (fun neededId =>
              match alookup locs neededId with
              | some (.item parentId) => parentId == containerId
              | _ => false) then
          let flags := flags.insert completeFlag
          let out :=
            match props.complete_text with
            | some text => if (strTrim text) ≠ "" then out.say (strTrim text) else out
            | none => out
          (out, flags)
        else (out, flags)

/-- The carried-item filter used by store/drop/examine matching. -/
def carriedFilter : Item → ItemLocation → Bool :=
  fun _ loc => loc == ItemLocation.inventory

/-- Step 1 of `try_handle_container_store`: is any visible in-scope
container accepting this store verb? -/
def storeVerbSupported (w : World) (locs : Locs) (currentRoomId : String)
    (flags : Flags) (verbL : String) : Bool :=
  (avalues w.items).any fun c =>
    (match alookup locs c.id with
     | some (.room r) => r == currentRoomId
     | some .inventory => true
     | _ => false) &&
    conditions_met c.conditions flags &&
    (match c.kind with
     | .container props => props.verbs.any (fun v => eqIgnoreAsciiCase v verbL)
     | .simple => false)

/-- Step 3's container filter of `try_handle_container_store`: in scope and
supporting the store verb. -/
def storeContainerFilter (currentRoomId verbL : String) (candidate : Item)
    (loc : ItemLocation) : Bool :=
  (match loc with
   | .room r => r == currentRoomId
   | .inventory => true
   | _ => false) &&
  (match candidate.kind with
   | .container props => props.verbs.any (fun v => eqIgnoreAsciiCase v verbL)
   | .simple => false)

/-- `try_handle_container_store` from `engine/items.rs`: the
"verb item [prep] container" store request. -/
def try_handle_container_store (out : Output) (verb rest : String)
    (locs : Locs) (w : World) (currentRoomId : String) (flags : Flags) :
    Output × Locs × Flags × Bool :=
  let verbL := lowerStr (strTrim verb)
  if verbL = "" then (out, locs, flags, false)
  else
    if !(storeVerbSupported w locs currentRoomId flags verbL) then
      (out, locs, flags, false)
    else
      let query := lowerStr (strTrim rest)
      if query = "" then
        (out.say ("What do you want to " ++ verbL ++ "?"), locs, flags, true)
      else
        match find_item_ignore_conditions w locs [] query carriedFilter with
        | .nomatch => (out.say "You aren't carrying anything like that.", locs, flags, true)
        | .many _ =>
          (out.say ("Be more specific about what you want to " ++ verbL ++ "."),
            locs, flags, true)
        | .one item =>
          if !item.portable then
            (out.say ("You can't " ++ verbL ++ " the " ++ item.name ++ "."),
              locs, flags, true)
          else
            match find_item w locs flags query
                (storeContainerFilter currentRoomId verbL) with
            | .nomatch =>
              (out.say ("Where do you want to " ++ verbL ++ " the " ++
                item.name ++ "?"), locs, flags, true)
            | .many _ =>
              (out.say ("Be more specific about where you want to " ++
                verbL ++ " it."), locs, flags, true)
            | .one container =>
              match container.kind with
              | .simple => (out, locs, flags, true)
              | .container props =>
                if !props.conditions.isEmpty &&
                    !(conditions_met props.conditions flags) then
                  (out.say (strTrim props.closed_text), locs, flags, true)
                else
                  match props.capacity with
                  | some cap =>
                    if countOccupants locs container.id ≥ cap then
                      (out.say ("The " ++ container.name ++ " is full."),
                        locs, flags, true)
                    else
                      let locs := ainsert locs item.id (ItemLocation.item container.id)
                      let out := out.say ("You " ++ verbL ++ " the " ++ item.name ++
                        " " ++ props.prep ++ " the " ++ container.name ++ ".")
                      let (out, flags) :=
                        check_container_completion out w locs flags container.id
                      (out, locs, flags, true)
                  | none =>
                    let locs := ainsert locs item.id (ItemLocation.item container.id)
                    let out := out.say ("You " ++ verbL ++ " the " ++ item.name ++
                      " " ++ props.prep ++ " the " ++ container.name ++ ".")
                    let (out, flags) :=
                      check_container_completion out w locs flags container.id
                    (out, locs, flags, true)

/-- The shared tail of `handle_examine`: examine text plus, for containers,
the closed text or the contents listing. -/
def examineFoundItem (out : Output) (w : World) (locs : Locs)
    (flags : Flags) (item : Item) : Output :=
  let out :=
    if (strTrim item.examine_text) = "" then
      out.say ("You see nothing special about the " ++ item.name ++ ".")
    else out.say (strTrim item.examine_text)
  match item.kind with
  | .simple => out
  | .container props =>
    if !props.conditions.isEmpty && !(conditions_met props.conditions flags) then
      out.say (strTrim props.closed_text)
    else
      let contents := sortByb (fun a b => strLeb a.name b.name)
        ((avalues w.items).filter fun other =>
          (match alookup locs other.id with
           | some (.item parentId) => parentId == item.id
           | _ => false) && conditions_met other.conditions flags)
      if contents.isEmpty then out.say "It is currently empty."
      else
        out.say ("Inside it you see: " ++
          String.intercalate ", " (contents.map (fun i => i.name)) ++ ".")

/-- `handle_examine` from `engine/items.rs` (the snapshot's item-only form):
inventory first (ignoring conditions), then the room; containers
additionally list their contents or report their closed text. -/
def handle_examine (out : Output) (w : World) (locs : Locs)
    (currentRoomId : String) (targetName : String) (flags : Flags) :
    Output :=
  let query := lowerStr (strTrim targetName)
  if query = "" then out.say "Examine what?"
  else
    match find_item_ignore_conditions w locs [] query
        (fun _ loc => loc == ItemLocation.inventory) with
    | .many _ => out.say "Be more specific."
    | .one item => examineFoundItem out w locs flags item
    | .nomatch =>
      match find_item w locs flags query
          (fun _ loc => match loc with
            | .room r => r == currentRoomId
            | _ => false) with
      | .nomatch => out.say "You see nothing like that here."
      | .many _ => out.say "Be more specific."
      | .one item => examineFoundItem out w locs flags item

/-- `try_handle_examine_npc` from `engine/npcs.rs`. -/
def try_handle_examine_npc (out : Output) (locs : Locs) (w : World)
    (npcLocs : NpcLocs) (currentRoomId : String) (targetName : String)
    (flags : Flags) : Output × Bool :=
  let query := lowerStr (strTrim targetName)
  if query = "" then (out, false)
  else
    match find_npc_by_words_scored w npcLocs flags currentRoomId query with
    | .nomatch => (out, false)
    | .many _ => (out.say "Be more specific.", true)
    | .one npc =>
      let out :=
        if (strTrim npc.examine_text) = "" then
          out.say ("You see nothing special about " ++ npc.name ++ ".")
        else out.say (strTrim npc.examine_text)
      let held := sortByb (fun a b => strLeb a.name b.name)
        ((avalues w.items).filter fun item =>
          (match alookup locs item.id with
           | some (.npc holder) => holder == npc.id
           | _ => false) && conditions_met item.conditions flags)
      if held.isEmpty then (out, true)
      else
        (out.say (npc.name ++ " is holding: " ++
          String.intercalate ", " (held.map (fun i => i.name)) ++ "."), true)

/-- `evaluate_global_conditions` from `engine/conditions.rs`: fire each
satisfied global condition in declaration order, honoring room allow/deny
lists and one-shot tracking. -/
def evaluate_global_conditions (out : Output) (w : World) (flags : Flags)
    (currentRoomId : String) (fired : List String) :
    Output × Flags × List String :=
  w.global_conditions.foldl
    (fun (acc : Output × Flags × List String) gc =>
      let (out, flags, fired) := acc
      if gc.one_shot && fired.contains gc.id then (out, flags, fired)
      else if !(conditions_met gc.conditions flags) then (out, flags, fired)
      else if !gc.allowed_rooms.isEmpty &&
          !(gc.allowed_rooms.any (fun r => r == currentRoomId)) then
        (out, flags, fired)
      else if gc.disallowed_rooms.any (fun r => r == currentRoomId) then
        (out, flags, fired)
      else
        let out := if (strTrim gc.response) ≠ "" then out.event (strTrim gc.response) else out
        let flags := apply_effects flags gc.effects
        let fired := if gc.one_shot then fired.insert gc.id else fired
        (out, flags, fired))
    (out, flags, fired)

/-- The single description string assembled by `render_room`: base
description, satisfied state-description fragments, then room-text
fragments of visible items in the room, joined by single spaces. -/
def roomDescString (room : Room) (flags : Flags) (w : World) (locs : Locs) :
    String :=
  let withStates := room.state_descs.foldl
    (fun acc sd =>
      if conditions_met sd.conditions flags && (strTrim sd.text) ≠ "" then
        (if acc ≠ "" then acc ++ " " else acc) ++ (strTrim sd.text)
      else acc)
    (strTrim room.desc)
  (avalues w.items).foldl
    (fun acc item =>
      if (match alookup locs item.id with
          | some (.room r) => r == room.id
          | _ => false) &&
         conditions_met item.conditions flags && (strTrim item.room_text) ≠ "" then
        (if acc ≠ "" then acc ++ " " else acc) ++ (strTrim item.room_text)
      else acc)
    withStates

/-- The exits summary of `render_room`: distinct visible directions, sorted
and de-duplicated, or the explicit no-exits marker. -/
def exitsSummary (room : Room) (flags : Flags) : String :=
  let visible := room.exits.filter (fun e => conditions_met e.conditions flags)
  if visible.isEmpty then "Exits: (none)"
  else
    "Exits: " ++ String.intercalate ", "
      ((sortByb strLeb (visible.map (fun e => e.direction))).dedup)

/-- `render_room` from `engine/render.rs` (the snapshot's item-only form). -/
def render_room (out : Output) (room : Room) (flags : Flags) (w : World)
    (locs : Locs) : Output :=
  let out := out.title room.name
  let out := out.say (roomDescString room flags w locs)
  out.set_exits (exitsSummary room flags)

/-- Modelled from the spec: the NPC-aware `render_room` the snapshot's
`lib.rs` calls is not under `src/` (only this caller and the item-only
`engine/render.rs` body are); per the spec the composer "converts current
room + flags + item/NPC placement into an ordered output document", so this
model appends the room-text fragments of visible NPCs located in the room
to the same description block, with the same join rule as items. -/
def render_room_npc (out : Output) (room : Room) (flags : Flags) (w : World)
    (locs : Locs) (npcLocs : NpcLocs) : Output :=
  let base := roomDescString room flags w locs
  let withNpcs := (avalues w.npcs).foldl
    (fun acc npc =>
      if (match alookup npcLocs npc.id with
          | some r => r == room.id
          | none => false) &&
         conditions_met npc.conditions flags && (strTrim npc.room_text) ≠ "" then
        (if acc ≠ "" then acc ++ " " else acc) ++ (strTrim npc.room_text)
      else acc)
    base
  let out := out.title room.name
  let out := out.say withNpcs
  out.set_exits (exitsSummary room flags)

/-- Strip every leading `!` (Rust `trim_start_matches('!')`). -/
def trimBangs (s : String) : String :=
  ⟨s.data.dropWhile (fun c => c = '!')⟩

/-- Does any condition string mention a changed flag (with or without `!`)?
The inner helper of `room_depends_on_any_flag` (`engine/render.rs`). -/
def condsTouchChanged (conds : List String) (changed : List String) : Bool :=
  conds.any fun c =>
    let t := (strTrim c)
    if t = "" then false
    else
      let name := (strTrim (trimBangs t))
      name ≠ "" && changed.contains name

/-- `room_depends_on_any_flag` from `engine/render.rs` (the snapshot's
item-only form): do the changed flags appear in any condition reachable
from the room's state-descriptions, exits, items in the room, containers in
the room, or their contents? -/
def room_depends_on_any_flag (room : Room) (w : World) (locs : Locs)
    (flagsChanged : List String) : Bool :=
  room.state_descs.any (fun sd => condsTouchChanged sd.conditions flagsChanged) ||
  room.exits.any (fun ex => condsTouchChanged ex.conditions flagsChanged) ||
  (avalues w.items).any (fun item =>
    (match alookup locs item.id with
     | some (.room r) => r == room.id
     | _ => false) &&
    (condsTouchChanged item.conditions flagsChanged ||
     (match item.kind with
      | .container props =>
        condsTouchChanged props.conditions flagsChanged ||
        (avalues w.items).any (fun inner =>
          (match alookup locs inner.id with
           | some (.item parentId) => parentId == item.id
           | _ => false) &&
          condsTouchChanged inner.conditions flagsChanged)
      | .simple => false)))

/-- Character positions at which `pat` occurs in `s` (used to model Rust
byte-index `find`/`rfind` for the ASCII separators `" to "`/`" from "`). -/
def subIdxsOf (s pat : String) : List Nat :=
  (List.range (strLen s + 1)).filter
    (fun i => pat.data.isPrefixOf (s.data.drop i))

/-- Rust `str::find` on a literal separator. -/
def findSub (s pat : String) : Option Nat := (subIdxsOf s pat).head?

/-- Rust `str::rfind` on a literal separator. -/
def rfindSub (s pat : String) : Option Nat := (subIdxsOf s pat).getLast?

/-- Rust `str::trim_start_matches` on a literal pattern. -/
def trimStartAll (s pat : String) : String :=
  go (strLen s) s
where
  go : Nat → String → String
    | 0, s => s
    | n + 1, s =>
      if pat ≠ "" && strStartsWith s pat then go n (strDrop s (strLen pat)) else s

/-- Modelled from the spec: `handle_give_to_npc` is called from the
snapshot's `lib.rs` but its body is not under `src/`; per the spec the
reserved verb `give` hands a carried item to an NPC in the room
(`ItemLocation::Npc(holder)`), resolved through the locator with the usual
none/one/many outcomes. -/
def handle_give_to_npc (out : Output) (locs : Locs) (w : World)
    (npcLocs : NpcLocs) (currentRoomId : String) (itemPart npcPart : String)
    (flags : Flags) : Output × Locs :=
  match find_item_ignore_conditions w locs [] itemPart
      (fun _ loc => loc == ItemLocation.inventory) with
  | .nomatch => (out.say "You aren't carrying that.", locs)
  | .many _ => (out.say "Be more specific.", locs)
  | .one item =>
    match find_npc_by_words_scored w npcLocs flags currentRoomId npcPart with
    | .nomatch => (out.say "There is no one like that here.", locs)
    | .many _ => (out.say "Be more specific.", locs)
    | .one npc =>
      (out.say ("You give the " ++ item.name ++ " to " ++ npc.name ++ "."),
       ainsert locs item.id (ItemLocation.npc npc.id))

/-- Modelled from the spec: `handle_take_from_npc` is called from the
snapshot's `lib.rs` but its body is not under `src/`; per the spec's data
model, items may be held by an NPC (`ItemLocation::Npc`), and a
`take X from Y` request first tries an NPC holder before container logic
(returning unhandled when no NPC matches, so containers get their turn). -/
def handle_take_from_npc (out : Output) (locs : Locs) (w : World)
    (npcLocs : NpcLocs) (currentRoomId : String) (itemPart holderPart : String)
    (flags : Flags) : Output × Locs × Bool :=
  match find_npc_by_words_scored w npcLocs flags currentRoomId holderPart with
  | .nomatch => (out, locs, false)
  | .many _ => (out.say "Be more specific.", locs, true)
  | .one npc =>
    match find_item w locs flags itemPart
        (fun _ loc => loc == ItemLocation.npc npc.id) with
    | .nomatch => (out, locs, false)
    | .many _ => (out.say "Be more specific about what to take.", locs, true)
    | .one item =>
      if !item.portable then
        (out.say ("You can't take the " ++ item.name ++ "."), locs, true)
      else
        (out.say ("You take the " ++ item.name ++ " from " ++ npc.name ++ "."),
         ainsert locs item.id ItemLocation.inventory, true)

/-- Modelled from the spec: the NPC-aware `handle_examine` the snapshot's
`lib.rs` calls is not under `src/`; composed from the snapshot's item
examine (`engine/items.rs`) followed by the NPC examine
(`try_handle_examine_npc`, `engine/npcs.rs`) when no item matches. -/
def handle_examine_full (out : Output) (w : World) (locs : Locs)
    (npcLocs : NpcLocs) (currentRoomId : String) (targetName : String)
    (flags : Flags) : Output :=
  let query := lowerStr (strTrim targetName)
  if query = "" then out.say "Examine what?"
  else
    match find_item_ignore_conditions w locs [] query
        (fun _ loc => loc == ItemLocation.inventory) with
    | .many _ => out.say "Be more specific."
    | .one item => examineFoundItem out w locs flags item
    | .nomatch =>
      match find_item w locs flags query
          (fun _ loc => match loc with
            | .room r => r == currentRoomId
            | _ => false) with
      | .many _ => out.say "Be more specific."
      | .one item => examineFoundItem out w locs flags item
      | .nomatch =>
        match try_handle_examine_npc out locs w npcLocs currentRoomId
            targetName flags with
        | (out, true) => out
        | (out, false) => out.say "You see nothing like that here."

/-- `GameState` from `lib.rs`. -/
structure GameState where
  world : World
  current_room_id : String
  flags : Flags
  fired_global_conditions : List String
  fired_dialogues : List String
  item_locations : Locs
  npc_locations : NpcLocs
  turn_index : Nat
  action_index : Nat

/-- `GameState::new` from `lib.rs`: seed item/NPC locations from their
declared starting locations. -/
def GameState.new (w : World) : GameState where
  world := w
  current_room_id := ""
  flags := []
  fired_global_conditions := []
  fired_dialogues := []
  item_locations :=
    w.items.foldl (fun m p => ainsert m p.fst p.snd.start_location) []
  npc_locations :=
    w.npcs.foldl (fun m p => ainsert m p.fst p.snd.start_room) []
  turn_index := 0
  action_index := 0

/-- the session-start method of `GameState` in `lib.rs`: enter the start room and render
it (using the NPC-aware renderer the snapshot's `lib.rs` calls). -/
def GameState.startSession (st : GameState) : Option Output × GameState :=
  let st := { st with current_room_id := st.world.start_room }
  match alookup st.world.rooms st.current_room_id with
  | some room =>
    (some (render_room_npc Output.new room st.flags st.world
      st.item_locations st.npc_locations), st)
  | none => (none, st)

/-- The command-dispatch chain of `GameState::step` (`lib.rs`), before the
global-condition pass: reserved verbs, container store, look, movement with
roaming and re-render, NPC actions, room actions, global actions, fallback.
Returns (output, state, quit, rendered-room-this-turn). -/
def stepDispatch (st : GameState) (out : Output) (input lower : String) :
    Output × GameState × Bool × Bool :=
  let w := st.world
  if lower = "quit" || lower = "exit" then (out.say "Goodbye.", st, true, false)
  else if lower = "inventory" || lower = "i" then
    (handle_inventory out w st.item_locations, st, false, false)
  else
    let parts := splitWs input
    let verb := parts.headD ""
    let rest := String.intercalate " " parts.tail
    let restLower := lowerStr rest
    if eqIgnoreAsciiCase verb "talk" || eqIgnoreAsciiCase verb "speak" then
      if restLower = "" then (out.say "Talk to whom?", st, false, false)
      else
        let (out, flags, fired, _) := handle_talk_to_npc out w
          st.npc_locations st.current_room_id restLower st.flags
          st.fired_dialogues
        (out, { st with flags := flags, fired_dialogues := fired }, false, false)
    else if eqIgnoreAsciiCase verb "give" then
      if restLower = "" then (out.say "Give what to whom?", st, false, false)
      else
        match rfindSub restLower " to " with
        | some idx =>
          let itemPart := strTrim (strTake restLower idx)
          let npcPart := strTrim (strDrop restLower (idx + 4))
          if itemPart = "" || npcPart = "" then
            (out.say "I don't understand who you want to give that to.",
              st, false, false)
          else
            let (out, locs) := handle_give_to_npc out st.item_locations w
              st.npc_locations st.current_room_id itemPart npcPart st.flags
            (out, { st with item_locations := locs }, false, false)
        | none => (out.say "Give it to whom?", st, false, false)
    else if eqIgnoreAsciiCase verb "take" || eqIgnoreAsciiCase verb "get" then
      if rest = "" then (out.say "Take what?", st, false, false)
      else if restLower = "all" then
        let (out, locs) := handle_take_all_room out st.item_locations w
          st.current_room_id st.flags
        (out, { st with item_locations := locs }, false, false)
      else
        match findSub restLower " from " with
        | some idx =>
          let itemPart := strTrim (strTake restLower idx)
          let containerPart := strTrim (strDrop restLower (idx + 6))
          if itemPart = "" || containerPart = "" then
            (out.say "I don't understand what you want to take from where.",
              st, false, false)
          else
            let (out, locs, handledNpc) := handle_take_from_npc out
              st.item_locations w st.npc_locations st.current_room_id
              itemPart containerPart st.flags
            if handledNpc then
              (out, { st with item_locations := locs }, false, false)
            else if itemPart = "all" then
              let (out, locs) := handle_take_all_from_container out locs w
                st.current_room_id containerPart st.flags
              (out, { st with item_locations := locs }, false, false)
            else
              let (out, locs) := handle_take_from_container out locs w
                st.current_room_id itemPart containerPart st.flags
              (out, { st with item_locations := locs }, false, false)
        | none =>
          let (out, locs) := handle_take out st.item_locations w
            st.current_room_id restLower st.flags
          (out, { st with item_locations := locs }, false, false)
    else if eqIgnoreAsciiCase verb "drop" then
      if rest = "" then (out.say "Drop what?", st, false, false)
      else if restLower = "all" then
        let (out, locs) := handle_drop_all out st.item_locations w
          st.current_room_id
        (out, { st with item_locations := locs }, false, false)
      else
        let (out, locs) := handle_drop out st.item_locations w
          st.current_room_id restLower
        (out, { st with item_locations := locs }, false, false)
    else if eqIgnoreAsciiCase verb "examine" || eqIgnoreAsciiCase verb "x" ||
        (eqIgnoreAsciiCase verb "look" && strStartsWith restLower "at ") then
      let target :=
        if eqIgnoreAsciiCase verb "look" then strTrim (trimStartAll restLower "at")
        else strTrim restLower
      if target = "" then (out.say "Examine what?", st, false, false)
      else
        (handle_examine_full out w st.item_locations st.npc_locations
          st.current_room_id target st.flags, st, false, false)
    else
      let (out, locs, flags, handledStore) := try_handle_container_store out
        verb restLower st.item_locations w st.current_room_id st.flags
      let st := { st with item_locations := locs, flags := flags }
      if handledStore then (out, st, false, false)
      else
        match alookup w.rooms st.current_room_id with
        | some currentRoom =>
          if lower = "look" || lower = "l" then
            (render_room_npc out currentRoom st.flags w st.item_locations
              st.npc_locations, st, false, true)
          else
            let prev := st.current_room_id
            let mv := try_handle_movement out st.current_room_id w
              currentRoom lower st.npc_locations st.flags st.action_index
            let st := { st with current_room_id := mv.roomId, flags := mv.flags }
            if mv.handled then
              if st.current_room_id ≠ prev then
                let st := { st with turn_index := st.turn_index + 1 }
                let roamed := roam_npcs_after_player_move w st.npc_locations
                  st.flags st.turn_index
                let st := { st with npc_locations := roamed }
                match alookup w.rooms st.current_room_id with
                | some room =>
                  (render_room_npc mv.out room st.flags w st.item_locations
                    st.npc_locations, st, false, true)
                | none => (mv.out, st, false, false)
              else (mv.out, st, false, true)
            else
              let (out, locs, flags, handledNpc) := try_handle_npc_action
                mv.out input w st.item_locations st.npc_locations
                st.current_room_id st.flags
              let st := { st with item_locations := locs, flags := flags }
              if handledNpc then (out, st, false, false)
              else
                let (out, flags, handledAct) := try_handle_action out
                  currentRoom input w st.item_locations st.current_room_id
                  st.flags
                let st := { st with flags := flags }
                if handledAct then (out, st, false, false)
                else
                  let (out, flags, handledGlob) := try_handle_global_action
                    out input w st.item_locations st.current_room_id st.flags
                  let st := { st with flags := flags }
                  if handledGlob then (out, st, false, false)
                  else (out.say "I don't understand that command.", st, false, false)
        | none =>
          (out.say ("Error: you are in an unknown room '" ++
            st.current_room_id ++ "'"), st, true, false)

/-- `GameState::step` from `lib.rs`: bump the action counter, run the
dispatch chain, then the global-condition pass, then the conditional
re-render keyed to the flags that actually changed. -/
def GameState.step (st : GameState) (input : String) :
    Output × GameState × Bool :=
  let out := Output.new
  let lower := lowerStr input
  let st := { st with action_index := (st.action_index + 1) % U64LIM }
  let (out, st, quit, rendered) := stepDispatch st out input lower
  let flagsBefore := st.flags
  let (out, flags, fired) := evaluate_global_conditions out st.world st.flags
    st.current_room_id st.fired_global_conditions
  let st := { st with flags := flags, fired_global_conditions := fired }
  let changed := (st.flags.filter (fun f => !flagsBefore.contains f)) ++
    (flagsBefore.filter (fun f => !st.flags.contains f))
  let out :=
    if !changed.isEmpty && !rendered then
      match alookup st.world.rooms st.current_room_id with
      | some room =>
        if room_depends_on_any_flag room st.world st.item_locations changed then
          render_room_npc out room st.flags st.world st.item_locations
            st.npc_locations
        else out
      | none => out
    else out
  (out, st, quit)

/-- One full replay: construct a fresh `GameState` on `w`, start the session, and
feed the command sequence through `step`, collecting each turn's output
block sequence (the host loop stops at quit). -/
def runReplay (w : World) (cmds : List String) : List (List OutputBlock) :=
  let st0 := GameState.new w
  let (out0, st0) := st0.startSession
  let init : List (List OutputBlock) :=
    match out0 with
    | some o => [o.blocks]
    | none => []
  (cmds.foldl
    (fun (acc : List (List OutputBlock) × GameState × Bool) cmd =>
      let (outs, st, quit) := acc
      if quit then (outs, st, quit)
      else
        let (o, st, q) := st.step cmd
        (outs ++ [o.blocks], st, q))
    (init, st0, false)).fst

/-! Concrete worlds used to instantiate and to refute claims. -/

/-- A gem whose visibility conditions require the absent flag `magic`. -/
def exGem : Item :=
  { id := "gem", name := "gem", aliases := [], room_text := "A gem lies here.",
    inventory_text := "", examine_text := "", conditions := ["magic"],
    portable := true, kind := .simple, start_location := .room "hall" }

/-- A room action requiring the (invisible) gem to be present and mentioned. -/
def exTouch : Action :=
  { id := "touch", verbs := ["touch"], nouns := [], response := "The gem hums.",
    effects := [], conditions := [], scope_requirements := ["gem"],
    requires_inventory := [], missing_inventory_text := none,
    missing_scope_text := none }

/-- The room hosting `exTouch`. -/
def exHall : Room :=
  { id := "hall", name := "Hall", desc := "A hall.", exits := [],
    actions := [exTouch], state_descs := [] }

/-- World for the scope-visibility counterexample. -/
def exWorldScope : World :=
  { id := "w", name := "w", desc := "", start_room := "hall",
    rooms := [("hall", exHall)], items := [("gem", exGem)], npcs := [],
    global_conditions := [], global_actions := [] }

/-- Locations for the scope-visibility counterexample: gem in the hall. -/
def exLocsScope : Locs := [("gem", .room "hall")]

/-- An ordinary coin item. -/
def exCoin : Item :=
  { id := "coin", name := "coin", aliases := [], room_text := "",
    inventory_text := "", examine_text := "", conditions := [],
    portable := true, kind := .simple, start_location := .inventory }

/-- Blocked candidate with a missing-inventory reason and verb score 1. -/
def exRub : Action :=
  { id := "rub", verbs := ["rub"], nouns := [], response := "r1",
    effects := [], conditions := [], scope_requirements := [],
    requires_inventory := ["coin"], missing_inventory_text := none,
    missing_scope_text := none }

/-- Blocked candidate with a condition reason and verb score 2. -/
def exRubStone : Action :=
  { id := "rubstone", verbs := ["rub stone"], nouns := [], response := "r2",
    effects := [], conditions := ["magic"], scope_requirements := [],
    requires_inventory := [], missing_inventory_text := none,
    missing_scope_text := none }

/-- World for the blocked-feedback priority counterexample: the coin exists
but sits in another room, so `exRub` is blocked on inventory. -/
def exWorldBlocked : World :=
  { id := "w", name := "w", desc := "", start_room := "hall", rooms := [],
    items := [("coin", exCoin)], npcs := [], global_conditions := [],
    global_actions := [] }

/-- Locations for the blocked-feedback counterexample. -/
def exLocsBlocked : Locs := [("coin", .room "vault")]

/-- A room action that requires a carried coin (consumable per the claim). -/
def exRubLamp : Action :=
  { id := "rublamp", verbs := ["rub"], nouns := [], response := "It glows.",
    effects := [], conditions := [], scope_requirements := [],
    requires_inventory := ["coin"], missing_inventory_text := none,
    missing_scope_text := none }

/-- Room hosting `exRubLamp`. -/
def exHallLamp : Room :=
  { id := "hall", name := "Hall", desc := "A hall.", exits := [],
    actions := [exRubLamp], state_descs := [] }

/-- World for the room-action consumption counterexample. -/
def exWorldLamp : World :=
  { id := "w", name := "w", desc := "", start_room := "hall",
    rooms := [("hall", exHallLamp)], items := [("coin", exCoin)], npcs := [],
    global_conditions := [], global_actions := [] }

/-- An NPC action requiring a carried coin (a bribe). -/
def exBribe : Action :=
  { id := "bribe", verbs := ["bribe"], nouns := [],
    response := "The guard pockets the coin.", effects := ["bribed"],
    conditions := [], scope_requirements := [], requires_inventory := ["coin"],
    missing_inventory_text := none, missing_scope_text := none }

/-- A guard NPC carrying the bribe action. -/
def exGuard : Npc :=
  { id := "guard", name := "guard", aliases := [], start_room := "hall",
    room_text := "A guard stands here.", examine_text := "",
    conditions := [], actions := [exBribe], roam := none,
    block_movement := false, block_conditions := [], block_text := none,
    block_exits := [], foe := false, attack_chance_percent := 0,
    attack_text := none, attack_effects := [], dialogue := [] }

/-- World for the NPC-action consumption witness. -/
def exWorldGuard : World :=
  { id := "w", name := "w", desc := "", start_room := "hall",
    rooms := [("hall", exHallLamp)], items := [("coin", exCoin)],
    npcs := [("guard", exGuard)], global_conditions := [],
    global_actions := [] }

/-- Container props: capacity one, store verb `put`, completion on the gem. -/
def exChestProps : ContainerProps :=
  { capacity := some 1, conditions := [], complete_when := ["gem"],
    complete_flag := some "done", closed_text := "It is closed.",
    complete_text := some "Something clicks.", verbs := ["put"],
    prep := "in" }

/-- The chest container. -/
def exChest : Item :=
  { id := "chest", name := "chest", aliases := [], room_text := "",
    inventory_text := "", examine_text := "", conditions := [],
    portable := false, kind := .container exChestProps,
    start_location := .room "hall" }

/-- A rock already inside the chest. -/
def exRock : Item :=
  { id := "rock", name := "rock", aliases := [], room_text := "",
    inventory_text := "", examine_text := "", conditions := [],
    portable := true, kind := .simple, start_location := .item "chest" }

/-- A carried gem to be stored. -/
def exGemCarried : Item :=
  { id := "gem", name := "gem", aliases := [], room_text := "",
    inventory_text := "", examine_text := "", conditions := [],
    portable := true, kind := .simple, start_location := .inventory }

/-- World for the capacity and completion witnesses. -/
def exWorldChest : World :=
  { id := "w", name := "w", desc := "", start_room := "hall", rooms := [],
    items := [("chest", exChest), ("rock", exRock), ("gem", exGemCarried)],
    npcs := [], global_conditions := [], global_actions := [] }

/-- Locations with the chest already full (the rock inside). -/
def exLocsChestFull : Locs :=
  [("chest", .room "hall"), ("rock", .item "chest"), ("gem", .inventory)]

/-- Locations with the gem (the required contents) inside the chest. -/
def exLocsChestDone : Locs :=
  [("chest", .room "hall"), ("gem", .item "chest")]

/-- An exit north with a two-word verb synonym. -/
def exExitNorth : Exit :=
  { direction := "north", target := "yard", verbs := ["go north"],
    conditions := [] }

/-- Room with the single north exit. -/
def exHallNorth : Room :=
  { id := "hall", name := "Hall", desc := "A hall.", exits := [exExitNorth],
    actions := [], state_descs := [] }

/-- Target room of the north exit. -/
def exYard : Room :=
  { id := "yard", name := "Yard", desc := "A yard.", exits := [],
    actions := [], state_descs := [] }

/-- World for the movement-abbreviation witness. -/
def exWorldMove : World :=
  { id := "w", name := "w", desc := "", start_room := "hall",
    rooms := [("hall", exHallNorth), ("yard", exYard)], items := [],
    npcs := [], global_conditions := [], global_actions := [] }

/-- An action whose scope requirement names an id absent from the world. -/
def exGhostTouch : Action :=
  { id := "ghost", verbs := ["touch"], nouns := [],
    response := "You touch the ghost.", effects := [], conditions := [],
    scope_requirements := ["ghost"], requires_inventory := [],
    missing_inventory_text := none, missing_scope_text := none }

/-- One `Output` mutation, for quantifying over call sequences. -/
inductive OutOp where
  | opTitle (s : String)
  | opSay (s : String)
  | opEvent (s : String)
  | opExits (s : String)

/-- Apply one `Output` mutation. -/
def applyOp (o : Output) : OutOp → Output
  | .opTitle s => o.title s
  | .opSay s => o.say s
  | .opEvent s => o.event s
  | .opExits s => o.set_exits s

/-- Apply a call sequence to a fresh `Output`. -/
def applyOps (ops : List OutOp) : Output :=
  ops.foldl applyOp Output.new

/-- The output-document invariant of the claim: no emitted block is
whitespace-only, and every block other than the last is not an `Exits`
block (hence at most one `Exits` block exists and, if present, it is last). -/
def OutputWF (o : Output) : Prop :=
  (∀ b ∈ o.blocks, (strTrim b.str) ≠ "") ∧
  (∀ b ∈ o.blocks.dropLast, b.isExits = false)

/-! Supporting lemmas. -/

theorem insertBeforeExits_ne_nil (b : OutputBlock) (l : List OutputBlock) :
    insertBeforeExits b l ≠ [] := by
  cases l with
  | nil => simp [insertBeforeExits]
  | cons x xs =>
    simp only [insertBeforeExits]
    split <;> simp

theorem mem_insertBeforeExits {b x : OutputBlock} {l : List OutputBlock}
    (hx : x ∈ insertBeforeExits b l) : x = b ∨ x ∈ l := by
  induction l with
  | nil => simpa [insertBeforeExits] using hx
  | cons y ys ih =>
    simp only [insertBeforeExits] at hx
    by_cases hy : y.isExits
    · simp [hy] at hx
      rcases hx with h | h | h
      · exact Or.inl h
      · exact Or.inr (by simp [h])
      · exact Or.inr (by simp [h])
    · simp [hy] at hx
      rcases hx with h | h
      · exact Or.inr (by simp [h])
      · rcases ih h with h' | h'
        · exact Or.inl h'
        · exact Or.inr (by simp [h'])

theorem dropLast_insertBeforeExits {b : OutputBlock} {l : List OutputBlock}
    (hb : b.isExits = false)
    (h : ∀ x ∈ l.dropLast, x.isExits = false) :
    ∀ x ∈ (insertBeforeExits b l).dropLast, x.isExits = false := by
  induction l with
  | nil => simp [insertBeforeExits]
  | cons y ys ih =>
    by_cases hy : y.isExits
    · -- the existing exits block is last, so the tail must be empty
      cases ys with
      | nil =>
        simp [insertBeforeExits, hy]
        exact hb
      | cons z zs =>
        exfalso
        have : y.isExits = false := h y (by simp [List.dropLast])
        simp [hy] at this
    · intro x hx
      simp only [insertBeforeExits, hy, if_neg, Bool.false_eq_true,
        not_false_iff, if_false] at hx
      rw [List.dropLast_cons_of_ne_nil (insertBeforeExits_ne_nil b ys)] at hx
      rcases List.mem_cons.mp hx with h' | h'
      · subst h'
        simpa using hy
      · cases ys with
        | nil =>
          simp [insertBeforeExits] at h'
        | cons z zs =>
          exact ih (fun x hx => h x (by
            rw [List.dropLast_cons_of_ne_nil (by simp)]
            exact List.mem_cons_of_mem _ hx)) x h'

theorem outputWF_applyOp {o : Output} (h : OutputWF o) (op : OutOp) :
    OutputWF (applyOp o op) := by
  obtain ⟨hne, hex⟩ := h
  cases op with
  | opTitle s =>
    simp only [applyOp, Output.title]
    split
    · exact ⟨hne, hex⟩
    · refine ⟨?_, ?_⟩
      · intro b hb
        rcases mem_insertBeforeExits hb with rfl | hb'
        · simpa [OutputBlock.str] using ‹¬(strTrim s) = ""›
        · exact hne b hb'
      · exact dropLast_insertBeforeExits (by simp [OutputBlock.isExits]) hex
  | opSay s =>
    simp only [applyOp, Output.say]
    split
    · exact ⟨hne, hex⟩
    · refine ⟨?_, ?_⟩
      · intro b hb
        rcases mem_insertBeforeExits hb with rfl | hb'
        · simpa [OutputBlock.str] using ‹¬(strTrim s) = ""›
        · exact hne b hb'
      · exact dropLast_insertBeforeExits (by simp [OutputBlock.isExits]) hex
  | opEvent s =>
    simp only [applyOp, Output.event]
    split
    · exact ⟨hne, hex⟩
    · refine ⟨?_, ?_⟩
      · intro b hb
        rcases mem_insertBeforeExits hb with rfl | hb'
        · simpa [OutputBlock.str] using ‹¬(strTrim s) = ""›
        · exact hne b hb'
      · exact dropLast_insertBeforeExits (by simp [OutputBlock.isExits]) hex
  | opExits s =>
    simp only [applyOp, Output.set_exits]
    split
    · exact ⟨hne, hex⟩
    · refine ⟨?_, ?_⟩
      · intro b hb
        rcases List.mem_append.mp hb with hb' | hb'
        · exact hne b (List.mem_of_mem_filter hb')
        · simp at hb'
          subst hb'
          simpa [OutputBlock.str] using ‹¬(strTrim s) = ""›
      · intro b hb
        rw [List.dropLast_concat] at hb
        have hh := List.of_mem_filter hb
        simpa using hh

theorem outputWF_foldl (ops : List OutOp) (o : Output) (h : OutputWF o) :
    OutputWF (ops.foldl applyOp o) := by
  induction ops generalizing o with
  | nil => exact h
  | cons op rest ih => exact ih _ (outputWF_applyOp h op)

theorem movement_blocked_go_eq_find (npcLocs : NpcLocs) (flags : Flags)
    (roomId : String) (e : Exit) (seed : Nat) (l : List Npc) :
    movement_blocked_by_npc.go npcLocs flags roomId e seed l =
      (l.find? (npcBlockQualifies npcLocs flags roomId e)).map
        (mkBlockOutcome flags seed) := by
  induction l with
  | nil => rfl
  | cons npc rest ih =>
    by_cases hq : npcBlockQualifies npcLocs flags roomId e npc
    · simp [movement_blocked_by_npc.go, List.find?_cons, hq]
    · simp [movement_blocked_by_npc.go, List.find?_cons, hq, ih]

/-! Claim theorems. -/

/-- C1: for every fixed seed and NPC id, `stable_roll_percent` and
`deterministic_index` return the same value on every call, and replaying
the same command sequence against a freshly constructed `GameState` on the
same `World` produces identical output block sequences: the embedded engine
is a pure function of its world and command sequence, with no hidden state
or randomness source. -/
theorem replay_determinism :
    (∀ seed npcId, stable_roll_percent seed npcId = stable_roll_percent seed npcId) ∧
    (∀ seed npcId len,
      deterministic_index seed npcId len = deterministic_index seed npcId len) ∧
    (∀ (w : World) (cmds : List String), runReplay w cmds = runReplay w cmds) :=
  ⟨fun _ _ => rfl, fun _ _ _ => rfl, fun _ _ => rfl⟩

/-- C5: during a movement attempt at most one NPC blocks: the blocking
check equals `find?` of the first NPC (in the embedded NPC-map iteration
order) satisfying the qualification predicate, with the outcome (message,
optional attack) built from that NPC alone — NPCs after it contribute no
message and no effects. -/
theorem movement_block_first_qualifying (w : World) (npcLocs : NpcLocs)
    (flags : Flags) (roomId : String) (e : Exit) (seed : Nat) :
    movement_blocked_by_npc w npcLocs flags roomId e seed =
      ((avalues w.npcs).find? (npcBlockQualifies npcLocs flags roomId e)).map
        (mkBlockOutcome flags seed) :=
  movement_blocked_go_eq_find npcLocs flags roomId e seed (avalues w.npcs)

/-- C9: after any sequence of `title`/`say`/`event`/`set_exits` calls on a
fresh `Output`, no emitted block is empty or whitespace-only and every
non-final block is not an `Exits` block — so at most one `Exits` block
exists and, if present, it is the last block; calls made after `set_exits`
landed before it, and `set_exits` replaced any prior `Exits` block. -/
theorem output_exits_last_invariant (ops : List OutOp) :
    OutputWF (applyOps ops) :=
  outputWF_foldl ops Output.new ⟨by simp [Output.new], by simp [Output.new]⟩

/-- C10: NPC roaming is independent of the flag set: the source discards
its `flags` argument (`let _ = flags`), so any two flag sets produce
identical NPC locations for the same world, location map and turn index —
an NPC with unmet visibility conditions rolls and relocates exactly as a
visible one would. -/
theorem roam_ignores_flags (w : World) (npcLocs : NpcLocs) (turnIndex : Nat)
    (flags1 flags2 : Flags) :
    roam_npcs_after_player_move w npcLocs flags1 turnIndex =
      roam_npcs_after_player_move w npcLocs flags2 turnIndex := rfl

theorem scopeScan_mentioned_false (w : World) (locs : Locs) (roomId : String)
    (tokens : List String) (reqs : List String) (r : String) (hr : r ∈ reqs)
    (hnone : alookup w.items r = none) (ok mentioned : Bool) (score : Nat) :
    (scopeScan w locs roomId tokens reqs ok mentioned score).2.1 = false := by
  induction reqs generalizing ok mentioned score with
  | nil => cases hr
  | cons q rest ih =>
    rcases List.mem_cons.mp hr with rfl | hr'
    · simp [scopeScan, hnone]
    · cases hq : alookup w.items q with
      | none => simp [scopeScan, hq]
      | some it =>
        simp only [scopeScan, hq]
        by_cases hm : input_mentions_item_name it tokens = true
        · simp only [hm, if_true]
          exact ih hr' _ _ _
        · simp only [hm, if_false]
          exact ih hr' _ _ _

theorem classify_skip_of_missing_scope (w : World) (locs : Locs)
    (roomId : String) (flags : Flags) (tokens : List String) (a : Action)
    (r : String) (hr : r ∈ a.scope_requirements)
    (hnone : alookup w.items r = none) :
    classifyAction w locs roomId flags tokens a = .skip := by
  have hne : a.scope_requirements.isEmpty = false := by
    cases hreq : a.scope_requirements with
    | nil => rw [hreq] at hr; cases hr
    | cons _ _ => rfl
  rcases hs : scopeScan w locs roomId tokens a.scope_requirements true true 0
    with ⟨ok, mentioned, score⟩
  have hm : mentioned = false := by
    have h := scopeScan_mentioned_false w locs roomId tokens
      a.scope_requirements r hr hnone true true 0
    rw [hs] at h
    exact h
  subst hm
  rcases hi : invScan locs a.requires_inventory true 0 with ⟨iok, iscore⟩
  simp only [classifyAction, hs, hi, hne]
  split
  · rfl
  · split
    · rfl
    · rfl

theorem stepAction_of_skip (w : World) (locs : Locs) (roomId : String)
    (flags : Flags) (tokens : List String) (a : Action) (st : EvalSt)
    (hclass : classifyAction w locs roomId flags tokens a = .skip) :
    stepAction w locs roomId flags tokens st a = st := by
  simp [stepAction, hclass]

/-- C2 counterexample: the gem's visibility conditions are unmet under the
empty flag set, yet the action whose scope-requirements list is exactly
`["gem"]` still executes on `touch gem` — the resolver never consults the
required item's visibility conditions, so the claimed full skip does not
happen. -/
theorem scope_visibility_not_checked_cex :
    conditions_met exGem.conditions [] = false ∧
    exTouch.scope_requirements = ["gem"] ∧
    evaluate_actions_for_input [exTouch] "touch gem" exWorldScope exLocsScope
      "hall" [] = (some exTouch, none, true) :=
  ⟨rfl, rfl, rfl⟩

/-- C2 (amended): a candidate action is fully skipped — neither executable
nor a blocked-feedback candidate, exactly as if it were absent from the
action list — when some required item id in its scope-requirements list is
absent from the world's item map; required items' own visibility conditions
are not consulted. -/
theorem scope_missing_item_fully_skips (xs ys : List Action) (a : Action)
    (input : String) (w : World) (locs : Locs) (roomId : String)
    (flags : Flags) (r : String) (hr : r ∈ a.scope_requirements)
    (hnone : alookup w.items r = none) :
    evaluate_actions_for_input (xs ++ a :: ys) input w locs roomId flags =
      evaluate_actions_for_input (xs ++ ys) input w locs roomId flags := by
  have hfold :
      (xs ++ a :: ys).foldl
        (stepAction w locs roomId flags (tokenize input)) ⟨0, [], none⟩ =
      (xs ++ ys).foldl
        (stepAction w locs roomId flags (tokenize input)) ⟨0, [], none⟩ := by
    rw [List.foldl_append, List.foldl_append, List.foldl_cons,
      stepAction_of_skip w locs roomId flags (tokenize input) a _
        (classify_skip_of_missing_scope w locs roomId flags
          (tokenize input) a r hr hnone)]
  simp only [evaluate_actions_for_input, hfold]

/-- C2 witness: a concrete action requiring the nonexistent item id
`ghost` is skipped outright — evaluating it alone equals evaluating the
empty action list. -/
theorem scope_missing_item_fully_skips_witness :
    alookup exWorldScope.items "ghost" = none ∧
    evaluate_actions_for_input [exGhostTouch] "touch ghost" exWorldScope
        exLocsScope "hall" [] =
      evaluate_actions_for_input [] "touch ghost" exWorldScope exLocsScope
        "hall" [] :=
  ⟨rfl,
    scope_missing_item_fully_skips [] [] exGhostTouch "touch ghost"
      exWorldScope exLocsScope "hall" [] "ghost" (by simp [exGhostTouch]) rfl⟩

/-- C3 counterexample: on input `rub stone` the action `exRub` is a
strong-intent blocked candidate for reason missing-inventory (rank 3, key
`1*10+3 = 13`) and `exRubStone` is blocked by its conditions (rank 1, key
`2*10+1 = 21`); the resolver reports the blocked-by-condition message, so
reason priority does not come first — score does. -/
theorem blocked_priority_cex :
    classifyAction exWorldBlocked exLocsBlocked "hall" []
        (tokenize "rub stone") exRub = .blocked 13 "You need the coin." ∧
    classifyAction exWorldBlocked exLocsBlocked "hall" []
        (tokenize "rub stone") exRubStone =
      .blocked 21 "You can't do that right now." ∧
    evaluate_actions_for_input [exRub, exRubStone] "rub stone"
        exWorldBlocked exLocsBlocked "hall" [] =
      (none, some "You can't do that right now.", true) :=
  ⟨rfl, rfl, rfl⟩

/-- C3 (amended): the blocked-feedback message is the candidate maximizing
`total_score * 10 + reason_rank` (first encountered wins ties); since the
ranks are at most 3, score dominates and reason priority (missing
inventory > missing scope > blocked by condition) only breaks ties between
equal-score candidates. In particular, of two blocked candidates the one
with the strictly greater key is reported regardless of reason. -/
theorem blocked_selection_score_dominant (a1 a2 : Action) (input : String)
    (w : World) (locs : Locs) (roomId : String) (flags : Flags)
    (k1 k2 : Nat) (m1 m2 : String)
    (h1 : classifyAction w locs roomId flags (tokenize input) a1 =
      .blocked k1 m1)
    (h2 : classifyAction w locs roomId flags (tokenize input) a2 =
      .blocked k2 m2)
    (hk : k1 < k2) (ht : (tokenize input).isEmpty = false) :
    evaluate_actions_for_input [a1, a2] input w locs roomId flags =
      (none, some m2, true) := by
  simp only [evaluate_actions_for_input, ht, Bool.false_eq_true, if_false,
    List.foldl_cons, List.foldl_nil, stepAction, h1, h2]
  simp [hk]

/-- C3 witness: the amended selection rule applied to the concrete blocked
candidates of the counterexample world. -/
theorem blocked_selection_score_dominant_witness :
    evaluate_actions_for_input [exRub, exRubStone] "rub stone"
        exWorldBlocked exLocsBlocked "hall" [] =
      (none, some "You can't do that right now.", true) :=
  blocked_selection_score_dominant exRub exRubStone "rub stone"
    exWorldBlocked exLocsBlocked "hall" [] 13 21 "You need the coin."
    "You can't do that right now." rfl rfl (by decide) rfl

theorem alookup_aerase_self {α : Type} (m : List (String × α)) (k : String) :
    alookup (aerase m k) k = none := by
  induction m with
  | nil => rfl
  | cons p rest ih =>
    by_cases hp : p.fst = k
    · simpa [aerase, hp] using ih
    · simp [aerase, alookup, List.find?, hp, beq_iff_eq, ih]

theorem find?_aerase_of_none {α : Type} (m : List (String × α))
    (k k' : String) (h : m.find? (fun p => p.fst == k) = none) :
    (aerase m k').find? (fun p => p.fst == k) = none := by
  induction m with
  | nil => rfl
  | cons p rest ih =>
    rw [List.find?_cons] at h
    cases hpk : (p.fst == k) with
    | true => rw [hpk] at h; cases h
    | false =>
      rw [hpk] at h
      simp only [aerase, List.filter_cons]
      split
      · rw [List.find?_cons, hpk]
        exact ih h
      · exact ih h

theorem alookup_aerase_of_none {α : Type} (m : List (String × α))
    (k k' : String) (h : alookup m k = none) :
    alookup (aerase m k') k = none := by
  unfold alookup at h ⊢
  rw [Option.map_eq_none'] at h ⊢
  exact find?_aerase_of_none m k k' h

theorem alookup_foldl_aerase_none {α : Type} (ks : List String)
    (m : List (String × α)) (k : String) (h : alookup m k = none) :
    alookup (ks.foldl (fun m k' => aerase m k') m) k = none := by
  induction ks generalizing m with
  | nil => exact h
  | cons q rest ih => exact ih _ (alookup_aerase_of_none _ _ _ h)

theorem alookup_foldl_aerase_mem {α : Type} (ks : List String)
    (m : List (String × α)) (k : String) (hk : k ∈ ks) :
    alookup (ks.foldl (fun m k' => aerase m k') m) k = none := by
  induction ks generalizing m with
  | nil => cases hk
  | cons q rest ih =>
    rcases List.mem_cons.mp hk with rfl | hk'
    · exact alookup_foldl_aerase_none rest _ _ (alookup_aerase_self m k)
    · exact ih _ hk'

/-- C4 counterexample: a room action with the non-empty
requires-inventory list `["coin"]` executes through a full engine step
(`rub lamp` emits the response), yet afterwards the coin still has a
location entry — it is still carried. Only NPC-scoped actions consume;
room (and global) action handlers borrow the item-location map read-only. -/
theorem room_action_not_consumed_cex :
    exRubLamp.requires_inventory = ["coin"] ∧
    ((GameState.new exWorldLamp).startSession.snd.step "rub lamp").fst =
      ⟨[.text "It glows."]⟩ ∧
    alookup (((GameState.new exWorldLamp).startSession.snd.step
        "rub lamp").snd.fst.item_locations) "coin" = some .inventory :=
  ⟨rfl, rfl, rfl⟩

/-- C4 (amended): when the NPC action handler executes an action, each id
in its requires-inventory list loses its entry in the item-location map
entirely (neither carried, nor in a room or container, nor examinable);
room- and global-scoped executions leave the map untouched. -/
theorem npc_action_consumes_inventory (out : Output) (input : String)
    (w : World) (locs : Locs) (npcLocs : NpcLocs) (roomId : String)
    (flags : Flags) (npc : Npc) (a : Action) (m : Option String) (hd : Bool)
    (hfind : find_npc_by_words_scored w npcLocs flags roomId input = .one npc)
    (heval : evaluate_actions_for_input npc.actions input w locs roomId flags
      = (some a, m, hd))
    (r : String) (hr : r ∈ a.requires_inventory) :
    alookup (try_handle_npc_action out input w locs npcLocs roomId flags).2.1
      r = none := by
  have ht : (tokenize input).isEmpty = false := by
    cases hq : (tokenize input).isEmpty with
    | false => rfl
    | true =>
      exfalso
      have hn : find_npc_by_words_scored w npcLocs flags roomId input
          = .nomatch := by
        simp [find_npc_by_words_scored, hq]
      rw [hn] at hfind
      cases hfind
  simp only [try_handle_npc_action, ht, Bool.false_eq_true, if_false, hfind,
    heval]
  exact alookup_foldl_aerase_mem _ _ _ hr

/-- C4 witness: bribing the concrete guard consumes the carried coin — its
location entry is gone after the NPC action executes. -/
theorem npc_action_consumes_inventory_witness :
    alookup (try_handle_npc_action Output.new "bribe guard" exWorldGuard
      [("coin", .inventory)] [("guard", "hall")] "hall" []).2.1 "coin" =
      none :=
  npc_action_consumes_inventory Output.new "bribe guard" exWorldGuard
    [("coin", .inventory)] [("guard", "hall")] "hall" [] exGuard exBribe
    none true rfl rfl "coin" (by simp [exBribe])

/-- C6: the completion check is idempotent once its flag is set: for a
container declaring completion flag `f`, whenever `f` is already in the
flag set the check returns the output and the flags unchanged (no re-emitted
text, no re-applied flag), regardless of the container's current contents;
and whenever the check changes anything at all, the flag was absent before
and is present afterwards — so it can fire at most once per flag. -/
theorem completion_fires_once (w : World) (cid : String) (it : Item)
    (props : ContainerProps) (f : String)
    (h1 : alookup w.items cid = some it)
    (h2 : it.kind = .container props)
    (h3 : props.complete_flag = some f) :
    (∀ (out : Output) (locs : Locs) (flags : Flags), flags.contains f = true →
      check_container_completion out w locs flags cid = (out, flags)) ∧
    (∀ (out : Output) (locs : Locs) (flags : Flags),
      check_container_completion out w locs flags cid ≠ (out, flags) →
      flags.contains f = false ∧
      (check_container_completion out w locs flags cid).2.contains f = true) := by
  constructor
  · intro out locs flags hf
    have hf' : f ∈ flags := by simpa using hf
    simp [check_container_completion, h1, h2, h3, hf']
  · intro out locs flags hne
    by_cases hw : props.complete_when.isEmpty
    · exact absurd (by simp [check_container_completion, h1, h2, h3, hw]) hne
    · by_cases hf : f ∈ flags
      · exact absurd (by simp [check_container_completion, h1, h2, h3, hw, hf]) hne
      · refine ⟨by simpa using hf, ?_⟩
        by_cases hall : props.complete_when.all
            (fun neededId => match alookup locs neededId with
              | some (.item parentId) => parentId == cid
              | _ => false)
        · simp [check_container_completion, h1, h2, h3, hw, hf, hall,
            List.insert]
        · exact absurd
            (by simp [check_container_completion, h1, h2, h3, hw, hf, hall])
            hne

/-- C6 witness: the chest's completion flag `done` is already set and the
required gem is again inside the chest; the check changes nothing and emits
nothing. -/
theorem completion_fires_once_witness :
    check_container_completion Output.new exWorldChest exLocsChestDone
      ["done"] "chest" = (Output.new, ["done"]) :=
  (completion_fires_once exWorldChest "chest" exChest exChestProps "done"
    rfl rfl rfl).1 Output.new exLocsChestDone ["done"] (by decide)

theorem alookup_ainsert_self {α : Type} (m : List (String × α)) (k : String)
    (v : α) : alookup (ainsert m k v) k = some v := by
  induction m with
  | nil => simp [ainsert, alookup]
  | cons p rest ih =>
    by_cases hb : p.fst = k
    · simp [ainsert, alookup, List.find?, hb]
    · simp [ainsert, alookup, List.find?, hb] at ih ⊢
      exact ih

/-- C7: for a store request that resolves to carried portable item `i` and
container `c` with declared capacity `cap` (conditions passing): when the
number of location entries inside `c` is at least `cap`, the store emits
`The {container} is full.` and returns the item-location map and flags
unchanged; otherwise the store succeeds and `i`'s location becomes
`Item(c)`. -/
theorem container_store_capacity (out : Output) (verb rest : String)
    (w : World) (locs : Locs) (roomId : String) (flags : Flags)
    (i c : Item) (props : ContainerProps) (cap : Nat)
    (hverb : lowerStr (strTrim verb) ≠ "")
    (hsup : storeVerbSupported w locs roomId flags
      (lowerStr (strTrim verb)) = true)
    (hquery : lowerStr (strTrim rest) ≠ "")
    (hitem : find_item_ignore_conditions w locs [] (lowerStr (strTrim rest))
      carriedFilter = .one i)
    (hport : i.portable = true)
    (hcont : find_item w locs flags (lowerStr (strTrim rest))
      (storeContainerFilter roomId (lowerStr (strTrim verb))) = .one c)
    (hkind : c.kind = .container props)
    (hclosed : (!props.conditions.isEmpty &&
      !(conditions_met props.conditions flags)) = false)
    (hcap : props.capacity = some cap) :
    (countOccupants locs c.id ≥ cap →
      try_handle_container_store out verb rest locs w roomId flags =
        (out.say ("The " ++ c.name ++ " is full."), locs, flags, true)) ∧
    (countOccupants locs c.id < cap →
      alookup (try_handle_container_store out verb rest locs w roomId
        flags).2.1 i.id = some (ItemLocation.item c.id)) := by
  constructor
  · intro hfull
    simp [try_handle_container_store, hverb, hsup, hquery, hitem, hport,
      hcont, hkind, hclosed, hcap, hfull]
  · intro hlt
    have hnot : ¬ (countOccupants locs c.id ≥ cap) := by omega
    simp [try_handle_container_store, hverb, hsup, hquery, hitem, hport,
      hcont, hkind, hclosed, hcap, hnot, alookup_ainsert_self]

/-- C7 witness: the chest (capacity 1) already holds the rock, so
`put gem in chest` reports `The chest is full.` and leaves the entire
item-location map (and flags) unchanged. -/
theorem container_store_capacity_witness :
    countOccupants exLocsChestFull "chest" ≥ 1 ∧
    try_handle_container_store Output.new "put" "gem in chest"
        exLocsChestFull exWorldChest "hall" [] =
      (Output.new.say "The chest is full.", exLocsChestFull, [], true) :=
  ⟨by decide,
    (container_store_capacity Output.new "put" "gem in chest" exWorldChest
      exLocsChestFull "hall" [] exGemCarried exChest exChestProps 1
      (by decide) rfl (by decide) rfl rfl rfl rfl rfl rfl).1 (by decide)⟩

theorem abbrevChars_nil (tokens : List String)
    (h : ∀ t ∈ tokens, strLen t ≠ 1) : abbrevChars tokens = [] := by
  induction tokens with
  | nil => rfl
  | cons t rest ih =>
    have ht := h t (List.mem_cons_self t rest)
    have hrest := ih (fun x hx => h x (List.mem_cons_of_mem _ hx))
    simp only [abbrevChars, List.filterMap_cons] at hrest ⊢
    cases hd : t.toList with
    | nil => simpa [hd] using hrest
    | cons c cs =>
      cases cs with
      | nil =>
        exfalso
        apply ht
        have hdata : t.data = [c] := hd
        simp [strLen, hdata]
      | cons c2 cs2 => simpa [hd] using hrest

theorem resolveExitAttempt_handled (out : Output) (roomId : String)
    (w : World) (npcLocs : NpcLocs) (flags : Flags) (seed : Nat) (e : Exit) :
    (resolveExitAttempt out roomId w npcLocs flags seed e).handled = true := by
  simp only [resolveExitAttempt]
  split
  · rfl
  · simp only [do_move]
    split <;> rfl

theorem exactExitMatches_nil (room : Room) (flags : Flags) :
    exactExitMatches room flags [] = [] := by
  simp [exactExitMatches]

/-- C8: the abbreviation pass of the movement resolver runs only when the
exact pass yields zero exits (when the exact pass is non-empty the attempt
is already handled there), and it only consults input tokens of length
exactly one: if every token has length other than one and the exact pass is
empty, the resolver declines the command with no output, no room change and
no flag change — even when a longer token's first character matches a
visible exit. -/
theorem movement_abbrev_single_char_only (out : Output) (roomId : String)
    (w : World) (room : Room) (cmd : String) (npcLocs : NpcLocs)
    (flags : Flags) (seed : Nat) :
    ((∀ t ∈ tokenize cmd, strLen t ≠ 1) →
      exactExitMatches room flags (tokenize cmd) = [] →
      try_handle_movement out roomId w room cmd npcLocs flags seed =
        ⟨out, roomId, flags, false⟩) ∧
    (exactExitMatches room flags (tokenize cmd) ≠ [] →
      (try_handle_movement out roomId w room cmd npcLocs flags seed).handled
        = true) := by
  constructor
  · intro htok hex
    by_cases hemp : (tokenize cmd).isEmpty
    · simp [try_handle_movement, hemp]
    · simp only [try_handle_movement, hemp, Bool.false_eq_true, if_false]
      rw [hex, abbrevChars_nil _ htok]
      simp
  · intro hex
    have hemp : (tokenize cmd).isEmpty = false := by
      cases he : tokenize cmd with
      | nil =>
        exact absurd (by rw [he]; exact exactExitMatches_nil room flags) hex
      | cons a l => rfl
    simp only [try_handle_movement, hemp, Bool.false_eq_true, if_false]
    cases hE : exactExitMatches room flags (tokenize cmd) with
    | nil => exact absurd hE hex
    | cons e es =>
      cases es with
      | nil => simp [resolveExitAttempt_handled]
      | cons e2 es2 => rfl

/-- C8 witness: in a room with a visible `north` exit, the two-letter
command `no` (whose first character matches `north`) matches no exit
exactly and never resolves by abbreviation — the movement handler returns
unhandled with everything unchanged. -/
theorem movement_abbrev_single_char_only_witness :
    (∀ t ∈ tokenize "no", strLen t ≠ 1) ∧
    exactExitMatches exHallNorth [] (tokenize "no") = [] ∧
    try_handle_movement Output.new "hall" exWorldMove exHallNorth "no" [] [] 1
      = ⟨Output.new, "hall", [], false⟩ :=
  ⟨by decide, rfl,
    (movement_abbrev_single_char_only Output.new "hall" exWorldMove
      exHallNorth "no" [] [] 1).1 (by decide) rfl⟩

end Rustyfic
